import Mathlib

/-!
Verification of the Bonzo plugin (Hedera DeFi integration shim).

This file gives a shallow embedding of the amount/address resolution and
transaction assembly pipeline of the repository and proves properties of it.

Conventions of the embedding:
* JavaScript strings are Lean `String`; the ASCII case mappings
  `toUpperCase` / `toLowerCase` are modelled character-wise with
  `Char.toUpper` / `Char.toLower` (the token symbols and addresses the
  code handles are ASCII).
* JavaScript `number` values that the code only compares and truncates are
  modelled as `ℚ`; `BigInt` is `ℤ`; `bigint` amounts are `ℤ`.
* `BigNumber` decimal values (arbitrary precision decimals) are modelled
  exactly as a mantissa/scale pair `DecimalAmount`, the value being
  `mant / 10 ^ scale`.
* Fallible JavaScript code (functions that may `throw`) returns
  `Except String` carrying the `Error` message.
* Calls that reach the Hedera ledger through the SDK client are recorded in
  an explicit effect trace (`LedgerCall`); outcomes of the external world
  (HTTP market data, on-chain reads, transaction submission) are supplied
  by an `Oracles` record so that every handler is a pure function of its
  inputs and those outcomes.
-/

/-- Character-wise ASCII uppercase of a string; models the effect of
JavaScript `String.prototype.toUpperCase` on ASCII input. -/
def jsToUpper (s : String) : String :=
  String.mk (s.data.map Char.toUpper)

/-- Character-wise ASCII lowercase of a string; models the effect of
JavaScript `String.prototype.toLowerCase` on ASCII input. -/
def jsToLower (s : String) : String :=
  String.mk (s.data.map Char.toLower)

/-- Code-unit comparison of two character lists, as used by the default
JavaScript `Array.prototype.sort` comparator on strings. -/
def charCodeLeB : List Char → List Char → Bool
  | [], _ => true
  | _ :: _, [] => false
  | a :: as, b :: bs =>
    if a.toNat < b.toNat then true
    else if b.toNat < a.toNat then false
    else charCodeLeB as bs

/-- String comparison by code units, the default `sort` order of JavaScript. -/
def jsStrLeB (a b : String) : Bool :=
  charCodeLeB a.data b.data

/-- Insertion into a sorted list, auxiliary for `jsSort`. -/
def insertSorted (x : String) : List String → List String
  | [] => [x]
  | y :: ys => if jsStrLeB x y then x :: y :: ys else y :: insertSorted x ys

/-- Model of `Array.prototype.sort()` on an array of strings: a stable sort
by code-unit order (insertion sort realises the observable contract). -/
def jsSort : List String → List String
  | [] => []
  | x :: xs => insertSorted x (jsSort xs)

/-- Model of `Array.prototype.join(", ")`. -/
def joinComma : List String → String
  | [] => ""
  | [x] => x
  | x :: xs => x ++ ", " ++ joinComma xs

/-- An exact decimal number `mant / 10 ^ scale`, the value a
`BigNumber` holds after parsing a finite decimal string or a JavaScript
number rendered in decimal (bignumber.js keeps decimal values exactly). -/
structure DecimalAmount where
  mant : Int
  scale : Nat
deriving DecidableEq, Repr

/-- Rational value of a `DecimalAmount`. -/
def DecimalAmount.toRat (a : DecimalAmount) : ℚ :=
  (a.mant : ℚ) / 10 ^ a.scale

/-- Embedding of `toWei` from `src/bonzo/utils.ts`:
`new BigNumber(amount).multipliedBy(new BigNumber(10).pow(decimals))`
is the exact decimal `mant * 10 ^ decimals / 10 ^ scale`, and
`.integerValue(BigNumber.ROUND_DOWN)` rounds it toward zero, which on the
mantissa/denominator representation is truncating division `Int.tdiv`. -/
def toWei (amount : DecimalAmount) (decimals : Nat) : Int :=
  Int.tdiv (amount.mant * 10 ^ decimals) (10 ^ amount.scale)

/-- Embedding of `maxUint256` from `src/bonzo/utils.ts`, the value of
`BigInt("0xffffffffffffffffffffffffffffffffffffffffffffffffffffffffffffffff")`. -/
def maxUint256 : Int :=
  0xffffffffffffffffffffffffffffffffffffffffffffffffffffffffffffffff

/-- Truncation toward zero of a rational: floor for non-negative values and
ceiling for negative ones. This is the reference rounding the specification
describes for amount conversion. -/
def truncTowardZero (q : ℚ) : Int :=
  if 0 ≤ q then ⌊q⌋ else ⌈q⌉

/-- Internal reserve representation of the market service, from the
`BonzoReserve` interface of `src/bonzo/bonzo-market-service.ts` (addresses
that no verified claim touches are kept as plain strings). -/
structure BonzoReserve where
  id : Int
  symbol : String
  name : String
  decimals : Nat
  htsAddress : String
  evmAddress : Option String
  supplyAPY : ℚ
  variableBorrowAPY : ℚ
  stableBorrowAPY : ℚ
  ltv : ℚ
  liquidationThreshold : ℚ
  liquidationBonus : ℚ
  availableLiquidityUSD : ℚ
  totalSupplyUSD : ℚ
  totalBorrowUSD : ℚ
  utilizationRate : ℚ
  isActive : Bool
  isFrozen : Bool
  borrowingEnabled : Bool
  stableBorrowingEnabled : Bool
  priceUSD : ℚ
deriving DecidableEq, Repr

/-- Embedding of `BonzoMarketService.filterActiveReserves` from
`src/bonzo/bonzo-market-service.ts`: keeps a reserve unless it is inactive
or frozen, unless borrowing is disabled while the caller did not opt in,
or unless `availableLiquidityUSD < 100`. -/
def filterActiveReserves (reserves : List BonzoReserve)
    (includeBorrowingDisabled : Bool) : List BonzoReserve :=
  reserves.filter fun reserve =>
    if !reserve.isActive || reserve.isFrozen then false
    else if !includeBorrowingDisabled && !reserve.borrowingEnabled then false
    else if reserve.availableLiquidityUSD < 100 then false
    else true

/-- A reserve template for concrete test inputs. -/
def demoReserve : BonzoReserve where
  id := 1
  symbol := "HBARX"
  name := "HBARX"
  decimals := 8
  htsAddress := "0.0.2231533"
  evmAddress := none
  supplyAPY := 2
  variableBorrowAPY := 4
  stableBorrowAPY := 5
  ltv := 60
  liquidationThreshold := 70
  liquidationBonus := 5
  availableLiquidityUSD := 100
  totalSupplyUSD := 1000
  totalBorrowUSD := 500
  utilizationRate := 50
  isActive := true
  isFrozen := false
  borrowingEnabled := true
  stableBorrowingEnabled := true
  priceUSD := 3

/-- JSON values as loaded from the contracts file `bonzo-contracts.json`
(`loadContracts` parses the file once and memoizes it; the embedding takes
the parsed table as an explicit argument). -/
inductive Js where
  | null
  | str (s : String)
  | num (q : ℚ)
  | obj (fields : List (String × Js))

/-- Property access `x?.[key]` (and guarded `x[key]`) with the JavaScript
undefined/null propagation: any access on a non-object yields `null`. -/
def Js.get (j : Js) (key : String) : Js :=
  match j with
  | .obj fields => (fields.lookup key).getD Js.null
  | _ => .null

/-- JavaScript falsiness of a JSON value (used for the `!entry` and `!net`
guards of `getTokenAddresses`). -/
def Js.isFalsy : Js → Bool
  | .null => true
  | .str s => decide (s = "")
  | .num q => decide (q = 0)
  | .obj _ => false

/-- Coercion used for `(net.token?.address || "") as string`: a string value
is kept and anything else (absent field, null) collapses to the empty
string. The contracts file stores addresses as strings. -/
def Js.strOrEmpty : Js → String
  | .str s => s
  | _ => ""

/-- Optional string view of a JSON value, for the `aToken`, `stableDebt`
and `variableDebt` addresses which the source reads without a default. -/
def Js.asString : Js → Option String
  | .str s => some s
  | _ => none

/-- The two supported networks, from `type NetworkKey` in
`src/bonzo/utils.ts`. -/
inductive NetworkKey where
  | hedera_mainnet
  | hedera_testnet
deriving DecidableEq, Repr

/-- The string form of a network key, as used both for JSON lookups and in
error messages. -/
def NetworkKey.key : NetworkKey → String
  | .hedera_mainnet => "hedera_mainnet"
  | .hedera_testnet => "hedera_testnet"

/-- Embedding of `getAvailableSymbols` from `src/bonzo/utils.ts`: scan all
entries of the contracts table, keep the keys whose
`[network].token.address` is a non-empty string, and sort them with the
default array sort. -/
def getAvailableSymbols (contracts : Js) (network : NetworkKey) : List String :=
  match contracts with
  | .obj fields =>
    let entries := fields.filter fun kv =>
      match (((contracts.get kv.1).get network.key).get ("token")).get ("address") with
      | .str s => decide (0 < s.length)
      | _ => false
    jsSort (entries.map Prod.fst)
  | _ => []

/-- Failures of `getTokenAddresses`, with the data each thrown `Error`
message carries. -/
inductive TokenErr where
  | notFound (symbol : String)
  | notConfigured (symbol : String) (network : NetworkKey)
  | notAvailable (symbol : String) (network : NetworkKey) (available : List String)
deriving DecidableEq, Repr

/-- The exact `Error` message text of each `getTokenAddresses` failure. -/
def TokenErr.message : TokenErr → String
  | .notFound s => "Token symbol not found in contracts: " ++ s
  | .notConfigured s n => "Token " ++ s ++ " is not configured for network " ++ n.key ++ "."
  | .notAvailable s n avail =>
      "Token " ++ s ++ " is not available on " ++ n.key ++ ". Available: " ++
        (if joinComma avail = "" then "<none>" else joinComma avail)

/-- Whether a `getTokenAddresses` failure carries the available-symbols
list (only the not-available failure does in the source). -/
def TokenErr.carriesAvailableList : TokenErr → Bool
  | .notAvailable _ _ _ => true
  | _ => false

/-- Address record returned by a successful `getTokenAddresses`. -/
structure TokenAddresses where
  token : String
  aToken : Option String
  stableDebt : Option String
  variableDebt : Option String
deriving DecidableEq, Repr

/-- Embedding of `getTokenAddresses` from `src/bonzo/utils.ts`. -/
def getTokenAddresses (contracts : Js) (symbol : String) (network : NetworkKey) :
    Except TokenErr TokenAddresses :=
  let entry := contracts.get symbol
  if entry.isFalsy then .error (.notFound symbol)
  else
    let net := entry.get network.key
    if net.isFalsy then .error (.notConfigured symbol network)
    else
      let tAddr := ((net.get ("token")).get ("address")).strOrEmpty
      if tAddr = "" then
        .error (.notAvailable symbol network (getAvailableSymbols contracts network))
      else
        .ok { token := tAddr
              aToken := ((net.get ("aToken")).get ("address")).asString
              stableDebt := ((net.get ("stableDebt")).get ("address")).asString
              variableDebt := ((net.get ("variableDebt")).get ("address")).asString }

/-- Embedding of `getLendingPoolAddress` from `src/bonzo/utils.ts`. -/
def getLendingPoolAddress (contracts : Js) (network : NetworkKey) :
    Except String String :=
  let addr := (((contracts.get ("LendingPool")).get network.key).get ("address")).strOrEmpty
  if addr = "" then .error ("LendingPool address not found for network " ++ network.key)
  else .ok addr

/-- Contracts table fixture used by concrete runs: HBARX is configured on
both networks, USDC only on mainnet, USDT has a testnet entry whose token
address is empty, and the LendingPool has distinct per-network addresses. -/
def demoContracts : Js := .obj [
  ("HBARX", .obj [
    ("hedera_testnet", .obj [
      ("token", .obj [("address", .str ("0x1111111111111111111111111111111111111111"))]),
      ("aToken", .obj [("address", .str ("0x2222222222222222222222222222222222222222"))])]),
    ("hedera_mainnet", .obj [
      ("token", .obj [("address", .str ("0x3333333333333333333333333333333333333333"))])])]),
  ("USDC", .obj [
    ("hedera_mainnet", .obj [
      ("token", .obj [("address", .str ("0x4444444444444444444444444444444444444444"))])])]),
  ("USDT", .obj [
    ("hedera_testnet", .obj [
      ("token", .obj [("address", .str (""))])])]),
  ("LendingPool", .obj [
    ("hedera_mainnet", .obj [("address", .str ("0x236897c518996163E7b313aD21D1C9fCC7BA1afc"))]),
    ("hedera_testnet", .obj [("address", .str ("0x5555555555555555555555555555555555555555"))])])]

/-- State of one environment variable as the handlers read it: unset, or
set to a string whose JavaScript `Number` conversion is the finite value
`q`, or set to a string whose conversion is NaN or infinite. -/
inductive EnvVal where
  | unset
  | numeric (q : ℚ)
  | nonFinite
deriving DecidableEq, Repr

/-- Result of the JavaScript expression `Number(process.env.X || "")` as a
finite value, or `none` when the conversion is not finite. An unset
variable yields `Number("")`, which is `0` — not NaN — so it is finite. -/
def envNumber : EnvVal → Option ℚ
  | .unset => some 0
  | .numeric q => some q
  | .nonFinite => none

/-- The environment variables consulted by `defaultGasAndFee` and by the
per-action override blocks of the handlers. -/
structure EnvConfig where
  BONZO_GAS_LIGHT : EnvVal
  BONZO_GAS_HEAVY : EnvVal
  BONZO_MAX_FEE_HBAR : EnvVal
  BONZO_GAS_WITHDRAW : EnvVal
  BONZO_MAX_FEE_HBAR_WITHDRAW : EnvVal
  BONZO_GAS_REPAY : EnvVal
  BONZO_MAX_FEE_HBAR_REPAY : EnvVal
  BONZO_MAX_FEE_HBAR_APPROVE : EnvVal
deriving DecidableEq, Repr

/-- The environment with every override variable unset. -/
def envAllUnset : EnvConfig where
  BONZO_GAS_LIGHT := .unset
  BONZO_GAS_HEAVY := .unset
  BONZO_MAX_FEE_HBAR := .unset
  BONZO_GAS_WITHDRAW := .unset
  BONZO_MAX_FEE_HBAR_WITHDRAW := .unset
  BONZO_GAS_REPAY := .unset
  BONZO_MAX_FEE_HBAR_REPAY := .unset
  BONZO_MAX_FEE_HBAR_APPROVE := .unset

/-- JavaScript `Math.trunc`. -/
def mathTrunc (q : ℚ) : Int :=
  truncTowardZero q

/-- JavaScript `Math.max(0, n)` on an integer. -/
def mathMax0 (n : Int) : Int :=
  max 0 n

/-- The gas-limit / max-fee pair of a transaction (fee in HBAR). -/
structure GasFee where
  gas : Int
  feeHbar : ℚ
deriving DecidableEq, Repr

/-- The two gas tiers of `defaultGasAndFee`. -/
inductive GasKind where
  | light
  | heavy
deriving DecidableEq, Repr

/-- Embedding of `defaultGasAndFee` from `src/bonzo/utils.ts` (the current
version, built-in tier constants 6,000,000 and 10,000,000): the gas chain
is `Number.isFinite(envLight) && kind === "light" ? max(0, trunc(envLight))
: Number.isFinite(envHeavy) && kind === "heavy" ? max(0, trunc(envHeavy))
: kind === "light" ? 6_000_000 : 10_000_000`, and the fee is
`Number.isFinite(envFee) && envFee > 0 ? envFee : 2`. -/
def defaultGasAndFee (kind : GasKind) (env : EnvConfig) : GasFee :=
  let envLight := envNumber env.BONZO_GAS_LIGHT
  let envHeavy := envNumber env.BONZO_GAS_HEAVY
  let envFee := envNumber env.BONZO_MAX_FEE_HBAR
  let gas : Int :=
    match envLight, kind with
    | some q, .light => mathMax0 (mathTrunc q)
    | _, _ =>
      match envHeavy, kind with
      | some q, .heavy => mathMax0 (mathTrunc q)
      | _, _ =>
        match kind with
        | .light => 6000000
        | .heavy => 10000000
  let feeHbar : ℚ :=
    match envFee with
    | some q => if 0 < q then q else 2
    | none => 2
  { gas := gas, feeHbar := feeHbar }

/-- The slice of the Hedera SDK `Client` the handlers read. -/
structure ClientState where
  ledgerId : Option String
  operatorAccountId : Option String
deriving DecidableEq, Repr

/-- Embedding of `getNetworkKey` from `src/bonzo/utils.ts`: lowercases the
ledger identifier, accepts exactly mainnet and testnet, and throws for
anything else (an absent ledger id interpolates as the string undefined). -/
def getNetworkKey (client : ClientState) : Except String NetworkKey :=
  match client.ledgerId.map jsToLower with
  | some s =>
    if s = "mainnet" then .ok .hedera_mainnet
    else if s = "testnet" then .ok .hedera_testnet
    else .error ("Unsupported Hedera network: " ++ s)
  | none => .error ("Unsupported Hedera network: undefined")

/-- Result of a submitted transaction after awaiting its receipt. -/
structure TxResult where
  txId : String
  status : String
deriving DecidableEq, Repr

/-- ABI-encoded call data, modelled structurally: `encodeFunctionData` is
injective per function signature, so the constructor applied to the
argument list faithfully represents the encoded bytes. -/
inductive CallData where
  | depositCall (asset : String) (amount : Int) (onBehalfOf : String) (referralCode : Int)
  | withdrawCall (asset : String) (amount : Int) (toAddr : String)
  | borrowCall (asset : String) (amount : Int) (interestRateMode : Nat)
      (referralCode : Int) (onBehalfOf : String)
  | repayCall (asset : String) (amount : Int) (rateMode : Nat) (onBehalfOf : String)
  | approveCall (spender : String) (amount : Int)
deriving DecidableEq, Repr

/-- The `uint256 amount` argument of any of the five encoded calls. -/
def CallData.amountArg : CallData → Int
  | .depositCall _ a _ _ => a
  | .withdrawCall _ a _ => a
  | .borrowCall _ a _ _ _ => a
  | .repayCall _ a _ _ => a
  | .approveCall _ a => a

/-- A fully configured `ContractExecuteTransaction` before the mode
branch: target contract, gas limit, call data and max fee. -/
structure TxIntent where
  contractAddr : String
  gas : Int
  data : CallData
  maxFeeHbar : ℚ
deriving DecidableEq, Repr

/-- Ledger-client entry points a handler can reach, recorded in order. -/
inductive LedgerCall where
  | contractCallQuery (contractAddr : String)
  | accountInfoQuery (accountId : String)
  | txExecute (tx : TxIntent)
  | txFreeze (tx : TxIntent)
deriving DecidableEq, Repr

/-- Outcomes of the external world: the market-data HTTP fetch, on-chain
reads, address conversions of the SDK, and transaction submission or
freezing. Supplying them as a record makes every handler a pure function. -/
structure Oracles where
  fetchReserves : Except String (List BonzoReserve)
  erc20Decimals : String → Except String Nat
  accountInfo : String → Except Unit (Option String)
  solidityAddress : String → Except String String
  evmToAccount : String → Option String
  executeTx : TxIntent → Except String TxResult
  freezeBytes : TxIntent → Except String (List Nat)

/-- Borrow and repay rate modes, from `RATE_MODE_MAP` in
`src/bonzo/utils.ts`. -/
inductive RateMode where
  | stable
  | variableRate
deriving DecidableEq, Repr

/-- Embedding of `RATE_MODE_MAP`. -/
def RATE_MODE_MAP : RateMode → Nat
  | .stable => 1
  | .variableRate => 2

/-- Embedding of `fetchErc20Decimals` from `src/bonzo/utils.ts`: issues a
`ContractCallQuery` against the token contract; the oracle covers the
query outcome, ABI decoding and the finite check, and any failure is
rethrown wrapped in the failed-to-read message. -/
def fetchErc20Decimals (o : Oracles) (tokenEvm : String) :
    Except String Nat × List LedgerCall :=
  match o.erc20Decimals tokenEvm with
  | .ok dec => (.ok dec, [.contractCallQuery tokenEvm])
  | .error e =>
    (.error ("Failed to read ERC20 decimals for " ++ tokenEvm ++ ": " ++ e),
      [.contractCallQuery tokenEvm])

/-- The decimals-resolution block that appears verbatim in each of the
five handlers (for instance `src/tools/deposit.ts` lines 48 to 56): try
the market data and swallow any error; if no reserve matches the symbol
case-insensitively, fall back to the live on-chain decimals read. -/
def resolveDecimalsStep (o : Oracles) (tokenSymbol : String) (token : String) :
    Except String Nat × List LedgerCall :=
  let decimals : Option Nat :=
    match o.fetchReserves with
    | .error _ => none
    | .ok reserves =>
      (reserves.find? fun r => jsToUpper r.symbol == jsToUpper tokenSymbol).map
        (fun r => r.decimals)
  match decimals with
  | some d => (.ok d, [])
  | none => fetchErc20Decimals o token

/-- Validity test of an account alias EVM address, from
`getEvmAliasAddress` in `src/bonzo/utils.ts`. -/
def isValidEvmAlias (evm : String) : Bool :=
  List.isPrefixOf (("0x").data) evm.data && decide (evm.length = 42) &&
    decide (evm ≠ ("0x0000000000000000000000000000000000000000"))

/-- Embedding of `getEvmAliasAddress` from `src/bonzo/utils.ts`: parse the
account id (a parse failure escapes, because the fallback path parses the
same id again after the catch), query the account info, and return the
alias EVM address when valid, the derived solidity address otherwise. -/
def getEvmAliasAddress (o : Oracles) (accountId : String) :
    Except String String × List LedgerCall :=
  match o.solidityAddress accountId with
  | .error e => (.error e, [])
  | .ok sol =>
    match o.accountInfo accountId with
    | .ok (some evm) =>
      if isValidEvmAlias evm then (.ok evm, [.accountInfoQuery accountId])
      else (.ok ("0x" ++ sol), [.accountInfoQuery accountId])
    | .ok none => (.ok ("0x" ++ sol), [.accountInfoQuery accountId])
    | .error _ => (.ok ("0x" ++ sol), [.accountInfoQuery accountId])

/-- Embedding of the synchronous `toEvmAddressFromAccount` as called by
the withdraw, borrow and repay handlers (single-argument call site):
derive the solidity address from the account id, no ledger query. -/
def toEvmAddressFromAccount (o : Oracles) (accountId : String) :
    Except String String :=
  match o.solidityAddress accountId with
  | .ok sol => .ok ("0x" ++ sol)
  | .error e => .error e

/-- Embedding of `evmToHederaAccountId` from `src/bonzo/utils.ts`: convert
through the SDK and fall back to the input when conversion fails. -/
def evmToHederaAccountId (o : Oracles) (evmAddress : String) : String :=
  match o.evmToAccount evmAddress with
  | some accId => accId
  | none => evmAddress

/-- Embedding of `formatAddress` from `src/bonzo/utils.ts`. -/
def formatAddress (o : Oracles) (evmAddress : String) : String :=
  let hederaAccountId := evmToHederaAccountId o evmAddress
  if hederaAccountId = evmAddress then evmAddress
  else hederaAccountId ++ " (" ++ evmAddress ++ ")"

/-- The hardcoded mainnet LendingPool address of `src/bonzo/utils.ts`. -/
def MAINNET_LENDING_POOL_ADDRESS : String :=
  "0x236897c518996163E7b313aD21D1C9fCC7BA1afc"

/-- The warning text `validateNetworkMismatch` returns, as a function of
the formatted address. -/
def networkMismatchText (formattedAddress : String) : String :=
  "⚠️ Network Mismatch Detected!\n\nYou are trying to interact with the mainnet LendingPool address (" ++
    formattedAddress ++
    ") while your environment is configured for testnet (HEDERA_NETWORK=\"testnet\").\n\nTo interact with mainnet:\n1. Update your .env file: HEDERA_NETWORK=\"mainnet\"\n2. Ensure your account and private key are configured for mainnet\n3. Restart your application\n\nTo use testnet, ensure you\x27re using testnet addresses."

/-- Embedding of `validateNetworkMismatch` from `src/bonzo/utils.ts`:
re-derives the network from the client (which can throw), compares the
address case-insensitively with the mainnet LendingPool address, and
returns the warning exactly when the client is on testnet. -/
def validateNetworkMismatch (o : Oracles) (client : ClientState) (address : String) :
    Except String (Option String) :=
  match getNetworkKey client with
  | .error e => .error e
  | .ok network =>
    if network = NetworkKey.hedera_testnet &&
        jsToLower address == jsToLower MAINNET_LENDING_POOL_ADDRESS then
      .ok (some (networkMismatchText (formatAddress o address)))
    else
      .ok none

/-- Lowercase hex digit of a value below 16. -/
def hexDigitChar (n : Nat) : Char :=
  if n < 10 then Char.ofNat (48 + n) else Char.ofNat (87 + n)

/-- Two-digit lowercase hex rendering of one byte. -/
def hexOfByte (b : Nat) : List Char :=
  [hexDigitChar (b / 16 % 16), hexDigitChar (b % 16)]

/-- Model of `Buffer.prototype.toString("hex")`. -/
def hexOfBytes (bs : List Nat) : String :=
  String.mk (bs.map hexOfByte).flatten

/-- Raw payload of a handler response. -/
inductive RawOut where
  | submitted (transactionId : String) (status : String)
  | txBytes (bytes : List Nat)
deriving DecidableEq, Repr

/-- A handler result: either a bare string (early returns, the mismatch
warning, boundary failure strings) or a `handleResponse` pair. -/
inductive ToolOut where
  | text (s : String)
  | response (raw : RawOut) (humanMessage : String)
deriving DecidableEq, Repr

/-- Embedding of `handleResponse` from `src/bonzo/utils.ts`. -/
def handleResponse (raw : RawOut) (humanMessage : String) : ToolOut :=
  .response raw humanMessage

/-- The two agent-kit execution modes the handlers branch on. -/
inductive AgentMode where
  | autonomous
  | returnBytes
deriving DecidableEq, Repr

/-- JavaScript `a || b` on two optional strings, where both absence and
the empty string are falsy. -/
def jsOrString : Option String → Option String → Option String
  | some s, b => if s = "" then b else some s
  | none, b => b

/-- The mode branch that ends every handler, verbatim-identical across the
five tools (for instance `src/tools/deposit.ts` lines 86 to 96): in
autonomous mode execute the transaction and await the receipt; otherwise
freeze it with `buildTxBytes` and return the hex-rendered bytes.
`prefixCalls` is the trace accumulated before this point. -/
def assembleAndRun (o : Oracles) (mode : AgentMode) (label : String)
    (tx : TxIntent) (prefixCalls : List LedgerCall) :
    Except String ToolOut × List LedgerCall :=
  if mode = AgentMode.autonomous then
    match o.executeTx tx with
    | .error e => (.error e, prefixCalls ++ [.txExecute tx])
    | .ok r =>
      (.ok (handleResponse (.submitted r.txId r.status)
        (label ++ " submitted. Status: " ++ r.status ++ " TxId: " ++ r.txId)),
        prefixCalls ++ [.txExecute tx])
  else
    match o.freezeBytes tx with
    | .error e => (.error e, prefixCalls ++ [.txFreeze tx])
    | .ok bs =>
      (.ok (handleResponse (.txBytes bs)
        ("Transaction prepared. Hex: " ++ hexOfBytes bs)),
        prefixCalls ++ [.txFreeze tx])

/-- Parameters of the deposit tool after schema validation
(`depositParameters` in `src/bonzo/bonzo.zod.ts`), with the
`?? 0` default of the referral code already applied. -/
structure DepositParams where
  tokenSymbol : String
  amount : DecimalAmount
  onBehalfOf : Option String
  referralCode : Int
deriving DecidableEq, Repr

/-- Parameters of the withdraw tool after schema validation. -/
structure WithdrawParams where
  tokenSymbol : String
  amount : DecimalAmount
  toAccount : Option String
  withdrawAll : Bool
deriving DecidableEq, Repr

/-- Parameters of the borrow tool after schema validation. -/
structure BorrowParams where
  tokenSymbol : String
  amount : DecimalAmount
  rateMode : RateMode
  onBehalfOf : Option String
  referralCode : Int
deriving DecidableEq, Repr

/-- Parameters of the repay tool after schema validation. -/
structure RepayParams where
  tokenSymbol : String
  amount : DecimalAmount
  rateMode : RateMode
  onBehalfOf : Option String
  repayAll : Bool
deriving DecidableEq, Repr

/-- Parameters of the approve tool after schema validation. -/
structure ApproveParams where
  tokenSymbol : String
  amount : DecimalAmount
  spender : Option String
  useMax : Bool
deriving DecidableEq, Repr

/-- The failure string every handler returns from its catch block:
`<label> failed: <message>. Network: <network>. Available tokens: <list>`. -/
def failureText (label msg : String) (contracts : Js) (network : NetworkKey) : String :=
  let available := joinComma (getAvailableSymbols contracts network)
  label ++ " failed: " ++ msg ++ ". Network: " ++ network.key ++
    ". Available tokens: " ++ (if available = "" then "<none>" else available)

/-- The catch block at the boundary of every handler: a successful body
passes through; a thrown error is rendered as the failure string with the
active network and available symbols. The block itself calls
`getNetworkKey` again, so when network resolution is what failed, the
second call throws out of the catch block and the error escapes. -/
def catchToolErrors (contracts : Js) (client : ClientState) (label : String)
    (body : Except String ToolOut × List LedgerCall) :
    Except String ToolOut × List LedgerCall :=
  match body.1 with
  | .ok r => (.ok r, body.2)
  | .error msg =>
    match getNetworkKey client with
    | .error e2 => (.error e2, body.2)
    | .ok network =>
      (.ok (.text (failureText label msg contracts network)), body.2)

/-- Body of `depositExecute` from `src/tools/deposit.ts` (the try block):
network, token address, decimals with fallback, amount, counterparty with
alias lookup, lending pool, network-mismatch guard, encode, gas and fee
(both override branches are hardcoded literals in this handler), then the
mode branch. -/
def depositBody (env : EnvConfig) (o : Oracles) (contracts : Js)
    (client : ClientState) (mode : AgentMode) (params : DepositParams) :
    Except String ToolOut × List LedgerCall :=
  match getNetworkKey client with
  | .error e => (.error e, [])
  | .ok network =>
  match getTokenAddresses contracts (jsToUpper params.tokenSymbol) network with
  | .error te => (.error te.message, [])
  | .ok addrs =>
  let dres := resolveDecimalsStep o params.tokenSymbol addrs.token
  match dres.1 with
  | .error e => (.error e, dres.2)
  | .ok decimals =>
  let amountWei := toWei params.amount decimals
  match jsOrString params.onBehalfOf client.operatorAccountId with
  | none => (.ok (.text ("Operator account is not set; provide optional.onBehalfOf")), dres.2)
  | some onBehalfOfId =>
  let ares := getEvmAliasAddress o onBehalfOfId
  match ares.1 with
  | .error e => (.error e, dres.2 ++ ares.2)
  | .ok onBehalfOf =>
  match getLendingPoolAddress contracts network with
  | .error e => (.error e, dres.2 ++ ares.2)
  | .ok lendingPool =>
  match validateNetworkMismatch o client lendingPool with
  | .error e => (.error e, dres.2 ++ ares.2)
  | .ok (some mismatch) => (.ok (.text mismatch), dres.2 ++ ares.2)
  | .ok none =>
  let data := CallData.depositCall addrs.token amountWei onBehalfOf params.referralCode
  let base := defaultGasAndFee .heavy env
  let gas : Int := if (0 : ℚ) < 1000000 then mathTrunc 1000000 else base.gas
  let fee : ℚ := if (0 : ℚ) < 3000000 then 3000000 else base.feeHbar
  let tx : TxIntent :=
    { contractAddr := lendingPool, gas := gas, data := data, maxFeeHbar := fee }
  assembleAndRun o mode ("Deposit") tx (dres.2 ++ ares.2)

/-- Embedding of `depositExecute` from `src/tools/deposit.ts`: the body
wrapped in the boundary catch. -/
def depositExecute (env : EnvConfig) (o : Oracles) (contracts : Js)
    (client : ClientState) (mode : AgentMode) (params : DepositParams) :
    Except String ToolOut × List LedgerCall :=
  catchToolErrors contracts client ("Deposit")
    (depositBody env o contracts client mode params)

/-- Body of `withdrawExecute` from `src/tools/withdraw.ts` (the try
block): the recipient is resolved with the synchronous address
derivation, the amount is the max sentinel when `withdrawAll` is set, and
gas and fee come from the withdraw-specific environment overrides. -/
def withdrawBody (env : EnvConfig) (o : Oracles) (contracts : Js)
    (client : ClientState) (mode : AgentMode) (params : WithdrawParams) :
    Except String ToolOut × List LedgerCall :=
  match getNetworkKey client with
  | .error e => (.error e, [])
  | .ok network =>
  match getTokenAddresses contracts (jsToUpper params.tokenSymbol) network with
  | .error te => (.error te.message, [])
  | .ok addrs =>
  let dres := resolveDecimalsStep o params.tokenSymbol addrs.token
  match dres.1 with
  | .error e => (.error e, dres.2)
  | .ok decimals =>
  match jsOrString params.toAccount client.operatorAccountId with
  | none => (.ok (.text ("Operator account is not set; provide optional.to")), dres.2)
  | some targetId =>
  match toEvmAddressFromAccount o targetId with
  | .error e => (.error e, dres.2)
  | .ok toAddr =>
  let amountWei := if params.withdrawAll then maxUint256 else toWei params.amount decimals
  match getLendingPoolAddress contracts network with
  | .error e => (.error e, dres.2)
  | .ok lendingPool =>
  let data := CallData.withdrawCall addrs.token amountWei toAddr
  let base := defaultGasAndFee .light env
  let gas : Int :=
    match envNumber env.BONZO_GAS_WITHDRAW with
    | some q => if 0 < q then mathTrunc q else base.gas
    | none => base.gas
  let fee : ℚ :=
    match envNumber env.BONZO_MAX_FEE_HBAR_WITHDRAW with
    | some q => if 0 < q then q else base.feeHbar
    | none => base.feeHbar
  let tx : TxIntent :=
    { contractAddr := lendingPool, gas := gas, data := data, maxFeeHbar := fee }
  assembleAndRun o mode ("Withdraw") tx dres.2

/-- Embedding of `withdrawExecute` from `src/tools/withdraw.ts`. -/
def withdrawExecute (env : EnvConfig) (o : Oracles) (contracts : Js)
    (client : ClientState) (mode : AgentMode) (params : WithdrawParams) :
    Except String ToolOut × List LedgerCall :=
  catchToolErrors contracts client ("Withdraw")
    (withdrawBody env o contracts client mode params)

/-- Body of `borrowExecute` from `src/tools/borrow.ts` (the try block):
like withdraw but with the rate mode mapped through `RATE_MODE_MAP`, no
per-action override block, and the heavy gas tier. -/
def borrowBody (env : EnvConfig) (o : Oracles) (contracts : Js)
    (client : ClientState) (mode : AgentMode) (params : BorrowParams) :
    Except String ToolOut × List LedgerCall :=
  match getNetworkKey client with
  | .error e => (.error e, [])
  | .ok network =>
  match getTokenAddresses contracts (jsToUpper params.tokenSymbol) network with
  | .error te => (.error te.message, [])
  | .ok addrs =>
  let dres := resolveDecimalsStep o params.tokenSymbol addrs.token
  match dres.1 with
  | .error e => (.error e, dres.2)
  | .ok decimals =>
  let amountWei := toWei params.amount decimals
  match jsOrString params.onBehalfOf client.operatorAccountId with
  | none => (.ok (.text ("Operator account is not set; provide optional.onBehalfOf")), dres.2)
  | some onBehalfOfId =>
  match toEvmAddressFromAccount o onBehalfOfId with
  | .error e => (.error e, dres.2)
  | .ok onBehalfOf =>
  match getLendingPoolAddress contracts network with
  | .error e => (.error e, dres.2)
  | .ok lendingPool =>
  let rate := RATE_MODE_MAP params.rateMode
  let data := CallData.borrowCall addrs.token amountWei rate params.referralCode onBehalfOf
  let gf := defaultGasAndFee .heavy env
  let tx : TxIntent :=
    { contractAddr := lendingPool, gas := gf.gas, data := data, maxFeeHbar := gf.feeHbar }
  assembleAndRun o mode ("Borrow") tx dres.2

/-- Embedding of `borrowExecute` from `src/tools/borrow.ts`. -/
def borrowExecute (env : EnvConfig) (o : Oracles) (contracts : Js)
    (client : ClientState) (mode : AgentMode) (params : BorrowParams) :
    Except String ToolOut × List LedgerCall :=
  catchToolErrors contracts client ("Borrow")
    (borrowBody env o contracts client mode params)

/-- Body of `repayExecute` from `src/tools/repay.ts` (the try block):
amount is the max sentinel when `repayAll` is set; gas and fee come from
the repay-specific environment overrides over the heavy tier. -/
def repayBody (env : EnvConfig) (o : Oracles) (contracts : Js)
    (client : ClientState) (mode : AgentMode) (params : RepayParams) :
    Except String ToolOut × List LedgerCall :=
  match getNetworkKey client with
  | .error e => (.error e, [])
  | .ok network =>
  match getTokenAddresses contracts (jsToUpper params.tokenSymbol) network with
  | .error te => (.error te.message, [])
  | .ok addrs =>
  let dres := resolveDecimalsStep o params.tokenSymbol addrs.token
  match dres.1 with
  | .error e => (.error e, dres.2)
  | .ok decimals =>
  match jsOrString params.onBehalfOf client.operatorAccountId with
  | none => (.ok (.text ("Operator account is not set; provide optional.onBehalfOf")), dres.2)
  | some onBehalfOfId =>
  match toEvmAddressFromAccount o onBehalfOfId with
  | .error e => (.error e, dres.2)
  | .ok onBehalfOf =>
  let amountWei := if params.repayAll then maxUint256 else toWei params.amount decimals
  match getLendingPoolAddress contracts network with
  | .error e => (.error e, dres.2)
  | .ok lendingPool =>
  let rate := RATE_MODE_MAP params.rateMode
  let data := CallData.repayCall addrs.token amountWei rate onBehalfOf
  let base := defaultGasAndFee .heavy env
  let gas : Int :=
    match envNumber env.BONZO_GAS_REPAY with
    | some q => if 0 < q then mathTrunc q else base.gas
    | none => base.gas
  let fee : ℚ :=
    match envNumber env.BONZO_MAX_FEE_HBAR_REPAY with
    | some q => if 0 < q then q else base.feeHbar
    | none => base.feeHbar
  let tx : TxIntent :=
    { contractAddr := lendingPool, gas := gas, data := data, maxFeeHbar := fee }
  assembleAndRun o mode ("Repay") tx dres.2

/-- Embedding of `repayExecute` from `src/tools/repay.ts`. -/
def repayExecute (env : EnvConfig) (o : Oracles) (contracts : Js)
    (client : ClientState) (mode : AgentMode) (params : RepayParams) :
    Except String ToolOut × List LedgerCall :=
  catchToolErrors contracts client ("Repay")
    (repayBody env o contracts client mode params)

/-- Body of `approveErc20Execute` from `src/tools/approve-erc20.ts` (the
try block): the spender defaults to the lending pool (the pool address is
only resolved when no spender is supplied, and only then is the
network-mismatch guard run); the transaction targets the token contract;
the gas override branch is a hardcoded literal while the fee override
reads the approve-specific variable. -/
def approveErc20Body (env : EnvConfig) (o : Oracles) (contracts : Js)
    (client : ClientState) (mode : AgentMode) (params : ApproveParams) :
    Except String ToolOut × List LedgerCall :=
  match getNetworkKey client with
  | .error e => (.error e, [])
  | .ok network =>
  match getTokenAddresses contracts (jsToUpper params.tokenSymbol) network with
  | .error te => (.error te.message, [])
  | .ok addrs =>
  let spenderOpt := jsOrString params.spender none
  match (match spenderOpt with
         | some s => Except.ok s
         | none => getLendingPoolAddress contracts network) with
  | .error e => (.error e, [])
  | .ok spender =>
  match (match spenderOpt with
         | none => validateNetworkMismatch o client spender
         | some _ => Except.ok none) with
  | .error e => (.error e, [])
  | .ok (some mismatch) => (.ok (.text mismatch), [])
  | .ok none =>
  let dres := resolveDecimalsStep o params.tokenSymbol addrs.token
  match dres.1 with
  | .error e => (.error e, dres.2)
  | .ok decimals =>
  let value := if params.useMax then maxUint256 else toWei params.amount decimals
  let data := CallData.approveCall spender value
  let base := defaultGasAndFee .light env
  let gas : Int := if (0 : ℚ) < 1000000 then mathTrunc 1000000 else base.gas
  let fee : ℚ :=
    match envNumber env.BONZO_MAX_FEE_HBAR_APPROVE with
    | some q => if 0 < q then q else base.feeHbar
    | none => base.feeHbar
  let tx : TxIntent :=
    { contractAddr := addrs.token, gas := gas, data := data, maxFeeHbar := fee }
  assembleAndRun o mode ("Approve") tx dres.2

/-- Embedding of `approveErc20Execute` from `src/tools/approve-erc20.ts`. -/
def approveErc20Execute (env : EnvConfig) (o : Oracles) (contracts : Js)
    (client : ClientState) (mode : AgentMode) (params : ApproveParams) :
    Except String ToolOut × List LedgerCall :=
  catchToolErrors contracts client ("Approve")
    (approveErc20Body env o contracts client mode params)

/-- A contracts table identical to `demoContracts` except that the testnet
LendingPool address is the mainnet LendingPool address — the
misconfiguration the network-mismatch guard detects. -/
def mismatchContracts : Js := .obj [
  ("HBARX", .obj [
    ("hedera_testnet", .obj [
      ("token", .obj [("address", .str ("0x1111111111111111111111111111111111111111"))])])]),
  ("LendingPool", .obj [
    ("hedera_testnet", .obj [("address", .str ("0x236897c518996163E7b313aD21D1C9fCC7BA1afc"))])])]

/-- A client configured for testnet with an operator account. -/
def demoClient : ClientState where
  ledgerId := some "testnet"
  operatorAccountId := some "0.0.1001"

/-- A client on an unsupported network. -/
def badClient : ClientState where
  ledgerId := some "previewnet"
  operatorAccountId := some "0.0.1001"

/-- Concrete external-world outcomes for test runs: the market data lists
the HBARX reserve, on-chain reads succeed, the operator account has a
registered alias address, and submission and freezing succeed. -/
def demoOracles : Oracles where
  fetchReserves := .ok [demoReserve]
  erc20Decimals := fun _ => .ok 6
  accountInfo := fun _ => .ok (some ("0x00000000000000000000000000000000000000aa"))
  solidityAddress := fun _ => .ok ("00000000000000000000000000000000000003e9")
  evmToAccount := fun _ => none
  executeTx := fun _ => .ok { txId := "0.0.1001@1700000000.000000001", status := "SUCCESS" }
  freezeBytes := fun _ => .ok [10, 167]

/-- Concrete deposit parameters (lowercase symbol, amount 5). -/
def demoDepositParams : DepositParams where
  tokenSymbol := "hbarx"
  amount := ⟨5, 0⟩
  onBehalfOf := none
  referralCode := 0

/-- Concrete withdraw parameters with the withdraw-all flag set and a
literal amount also supplied. -/
def demoWithdrawAllParams : WithdrawParams where
  tokenSymbol := "HBARX"
  amount := ⟨7, 0⟩
  toAccount := none
  withdrawAll := true

/-- The transaction the deposit fixture assembles. -/
def demoDepositTx : TxIntent where
  contractAddr := "0x5555555555555555555555555555555555555555"
  gas := 1000000
  data := .depositCall ("0x1111111111111111111111111111111111111111") 500000000
    ("0x00000000000000000000000000000000000000aa") 0
  maxFeeHbar := 3000000

/-- The transaction the withdraw-all fixture assembles (its gas is 0
because every gas environment variable is unset; see the gas defect). -/
def demoWithdrawTx : TxIntent where
  contractAddr := "0x5555555555555555555555555555555555555555"
  gas := 0
  data := .withdrawCall ("0x1111111111111111111111111111111111111111") maxUint256
    ("0x00000000000000000000000000000000000003e9")
  maxFeeHbar := 2

/-- Concrete approve parameters without a spender override. -/
def demoApproveParams : ApproveParams where
  tokenSymbol := "hbarx"
  amount := ⟨1, 0⟩
  spender := none
  useMax := false

/-- Oracles with an unreachable market-data endpoint. -/
def downOracles : Oracles :=
  { demoOracles with fetchReserves := .error ("Network error: request timeout") }

theorem mem_insertSorted (a x : String) (l : List String) :
    a ∈ insertSorted x l ↔ a = x ∨ a ∈ l := by
  induction l with
  | nil => simp [insertSorted]
  | cons y ys ih =>
    by_cases h : jsStrLeB x y = true
    · simp [insertSorted, h]
    · simp only [insertSorted, if_neg h, List.mem_cons, ih]
      tauto

theorem mem_jsSort (a : String) (l : List String) : a ∈ jsSort l ↔ a ∈ l := by
  induction l with
  | nil => simp [jsSort]
  | cons x xs ih => simp [jsSort, mem_insertSorted, ih]

theorem tdiv_pow10_nonneg (n : Int) (e : Nat) (hn : 0 ≤ n) :
    Int.tdiv n (10 ^ e) = ⌊(n : ℚ) / 10 ^ e⌋ := by
  have hcast : ((10 : ℚ) ^ e) = ((10 ^ e : Nat) : ℚ) := by push_cast; ring
  rw [hcast, Rat.floor_intCast_div_natCast n (10 ^ e),
    Int.tdiv_eq_ediv hn (by positivity)]
  norm_num

theorem tdiv_pow10_eq_truncTowardZero (n : Int) (e : Nat) :
    Int.tdiv n (10 ^ e) = truncTowardZero ((n : ℚ) / 10 ^ e) := by
  have hpow : (0 : ℚ) < 10 ^ e := by positivity
  rcases le_or_lt 0 n with hn | hn
  · have hq : (0 : ℚ) ≤ (n : ℚ) / 10 ^ e :=
      div_nonneg (by exact_mod_cast hn) hpow.le
    rw [truncTowardZero, if_pos hq, tdiv_pow10_nonneg n e hn]
  · have hq : (n : ℚ) / 10 ^ e < 0 :=
      div_neg_of_neg_of_pos (by exact_mod_cast hn) hpow
    rw [truncTowardZero, if_neg (not_le.mpr hq)]
    have h1 : Int.tdiv n (10 ^ e) = -Int.tdiv (-n) (10 ^ e) := by
      rw [← Int.neg_tdiv, neg_neg]
    have h2 : Int.tdiv (-n) (10 ^ e) = ⌊((-n : Int) : ℚ) / 10 ^ e⌋ :=
      tdiv_pow10_nonneg (-n) e (by omega)
    have h3 : ((-n : Int) : ℚ) / 10 ^ e = -((n : ℚ) / 10 ^ e) := by
      push_cast; ring
    rw [h1, h2, h3, Int.floor_neg, neg_neg]

/-- C1. For every exact decimal amount `a` and every decimals count
`d ≤ 18`, `toWei a d` is exactly the truncation toward zero of the
rational `a * 10 ^ d` (no floating point is involved), and for
non-negative amounts this is exactly the floor. -/
theorem toWei_exact_trunc (a : DecimalAmount) (d : Nat) (_hd : d ≤ 18) :
    toWei a d = truncTowardZero (a.toRat * 10 ^ d) ∧
      (0 ≤ a.mant → toWei a d = ⌊a.toRat * 10 ^ d⌋) := by
  have hval : a.toRat * 10 ^ d = ((a.mant * 10 ^ d : Int) : ℚ) / 10 ^ a.scale := by
    rw [DecimalAmount.toRat]; push_cast; ring
  have hmain : toWei a d = truncTowardZero (a.toRat * 10 ^ d) := by
    rw [toWei, hval, tdiv_pow10_eq_truncTowardZero]
  refine ⟨hmain, fun hm => ?_⟩
  have hq : 0 ≤ a.toRat * 10 ^ d := by
    rw [hval]
    have : (0 : Int) ≤ a.mant * 10 ^ d := by positivity
    positivity
  rw [hmain, truncTowardZero, if_pos hq]

/-- Witness for C1: the adversarial input of the specification,
`toWei("0.1", 18)`, where `"0.1"` is the exact decimal `1 / 10 ^ 1`;
the result is exactly `10 ^ 17`. -/
theorem toWei_exact_trunc_witness :
    (18 ≤ 18) ∧
      (toWei ⟨1, 1⟩ 18 = truncTowardZero ((DecimalAmount.mk 1 1).toRat * 10 ^ 18) ∧
        (0 ≤ (DecimalAmount.mk 1 1).mant →
          toWei ⟨1, 1⟩ 18 = ⌊(DecimalAmount.mk 1 1).toRat * 10 ^ 18⌋)) ∧
      toWei ⟨1, 1⟩ 18 = 10 ^ 17 :=
  ⟨le_refl 18, toWei_exact_trunc ⟨1, 1⟩ 18 (le_refl 18), by decide⟩

/-- C7 counterexample: a reserve whose available liquidity is exactly
100 USD fails the strictly-greater-than-100 condition of the claim, yet
`filterActiveReserves` keeps it (the code only drops liquidity below 100). -/
theorem filterActiveReserves_boundary_counterexample :
    filterActiveReserves [demoReserve] false = [demoReserve] ∧
      ¬(100 < demoReserve.availableLiquidityUSD) := by
  constructor
  · decide
  · decide

/-- C7 as amended: membership in `filterActiveReserves` is exactly: the
reserve occurs in the input, is active, is not frozen, has borrowing
enabled unless the caller opted in, and has available liquidity of at
least 100 USD (the boundary value 100 itself is kept). -/
theorem filterActiveReserves_mem (r : BonzoReserve) (rs : List BonzoReserve)
    (inc : Bool) :
    r ∈ filterActiveReserves rs inc ↔
      r ∈ rs ∧ r.isActive = true ∧ r.isFrozen = false ∧
        (inc = true ∨ r.borrowingEnabled = true) ∧
        100 ≤ r.availableLiquidityUSD := by
  simp only [filterActiveReserves, List.mem_filter]
  refine and_congr_right fun _ => ?_
  by_cases hL : r.availableLiquidityUSD < 100 <;>
    cases hA : r.isActive <;> cases hF : r.isFrozen <;>
      cases hB : r.borrowingEnabled <;> cases inc <;>
        simp [hL, not_lt.mp, le_of_not_lt]

/-- C3 as amended: when `getTokenAddresses` fails with the not-available
failure (network entry present but token address empty), the attached list
is exactly the available symbols of that network and never contains the
failing symbol. (When the network entry is absent entirely the thrown
not-configured error carries no list; see the counterexample.) -/
theorem getTokenAddresses_available_list (contracts : Js) (symbol : String)
    (network : NetworkKey) (avail : List String)
    (h : getTokenAddresses contracts symbol network =
      .error (.notAvailable symbol network avail)) :
    avail = getAvailableSymbols contracts network ∧ symbol ∉ avail := by
  simp only [getTokenAddresses] at h
  split_ifs at h with h1 h2 h3
  all_goals simp only [Except.error.injEq, Except.ok.injEq, TokenErr.notAvailable.injEq,
    reduceCtorEq, and_true, true_and, false_and, and_false] at h
  · have havail : avail = getAvailableSymbols contracts network := h.symm
    refine ⟨havail, ?_⟩
    intro hmem
    rw [havail] at hmem
    rcases contracts with _ | s | q | fields
    · simp [getAvailableSymbols] at hmem
    · simp [getAvailableSymbols] at hmem
    · simp [getAvailableSymbols] at hmem
    · simp only [getAvailableSymbols, mem_jsSort, List.mem_map] at hmem
      obtain ⟨kv, hkv, hfst⟩ := hmem
      rw [List.mem_filter] at hkv
      obtain ⟨-, hp⟩ := hkv
      rw [hfst] at hp
      revert hp h3
      cases haddr : ((((Js.obj fields).get symbol).get network.key).get ("token")).get ("address") with
      | null => simp
      | str s =>
        simp only [Js.strOrEmpty, decide_eq_true_eq]
        intro h3 hp
        rw [h3] at hp
        simp at hp
      | num q => simp
      | obj f2 => simp

/-- C3 counterexample: USDC exists in the directory and is unavailable on
testnet (its testnet entry is absent entirely), but the resulting failure
is the not-configured error, which carries no available-symbols list at
all — contradicting the claim that every such failure carries the list. -/
theorem getTokenAddresses_notConfigured_counterexample :
    (demoContracts.get ("USDC")).isFalsy = false ∧
      getTokenAddresses demoContracts "USDC" .hedera_testnet =
        .error (.notConfigured "USDC" .hedera_testnet) ∧
      TokenErr.carriesAvailableList (.notConfigured "USDC" .hedera_testnet) = false ∧
      getAvailableSymbols demoContracts .hedera_testnet = ["HBARX"] :=
  ⟨by rfl, by rfl, by rfl, by rfl⟩

/-- Witness for the amended C3 theorem: USDT on testnet fails with the
not-available error, whose list is the available testnet symbols and does
not contain USDT. -/
theorem getTokenAddresses_available_list_witness :
    getTokenAddresses demoContracts "USDT" .hedera_testnet =
      .error (.notAvailable "USDT" .hedera_testnet ["HBARX"]) ∧
      (["HBARX"] = getAvailableSymbols demoContracts .hedera_testnet ∧
        "USDT" ∉ ["HBARX"]) :=
  ⟨by rfl, getTokenAddresses_available_list demoContracts "USDT" .hedera_testnet
    ["HBARX"] (by rfl)⟩

theorem catchToolErrors_snd (contracts : Js) (client : ClientState) (label : String)
    (body : Except String ToolOut × List LedgerCall) :
    (catchToolErrors contracts client label body).2 = body.2 := by
  rcases body with ⟨v, fx⟩
  rcases v with m | r
  · rcases hnk : getNetworkKey client with e | nk <;> simp [catchToolErrors, hnk]
  · rfl

theorem catchToolErrors_fst_ok (contracts : Js) (client : ClientState) (label : String)
    (body : Except String ToolOut × List LedgerCall) (r : ToolOut)
    (h : body.1 = .ok r) :
    (catchToolErrors contracts client label body).1 = .ok r := by
  unfold catchToolErrors
  rw [h]

theorem catchToolErrors_caught (contracts : Js) (client : ClientState) (label : String)
    (body : Except String ToolOut × List LedgerCall) (network : NetworkKey) (msg : String)
    (hnk : getNetworkKey client = .ok network) (h : body.1 = .error msg) :
    (catchToolErrors contracts client label body).1 =
      .ok (.text (failureText label msg contracts network)) := by
  unfold catchToolErrors
  rw [h, hnk]

theorem fetchErc20Decimals_snd (o : Oracles) (token : String) :
    (fetchErc20Decimals o token).2 = [LedgerCall.contractCallQuery token] := by
  unfold fetchErc20Decimals
  split <;> rfl

theorem resolveDecimalsStep_calls (o : Oracles) (tokenSymbol token : String)
    (call : LedgerCall) (h : call ∈ (resolveDecimalsStep o tokenSymbol token).2) :
    call = .contractCallQuery token := by
  unfold resolveDecimalsStep at h
  rcases hr : o.fetchReserves with e | reserves
  · simp only [hr] at h
    rw [fetchErc20Decimals_snd] at h
    simpa using h
  · simp only [hr] at h
    rcases hf : List.find? (fun r => jsToUpper r.symbol == jsToUpper tokenSymbol) reserves
      with _ | r
    · simp only [hf, Option.map_none'] at h
      rw [fetchErc20Decimals_snd] at h
      simpa using h
    · simp only [hf, Option.map_some'] at h
      simp at h

theorem getEvmAliasAddress_calls (o : Oracles) (accountId : String) (call : LedgerCall)
    (h : call ∈ (getEvmAliasAddress o accountId).2) :
    call = .accountInfoQuery accountId := by
  unfold getEvmAliasAddress at h
  repeat' split at h
  all_goals simp_all

theorem getEvmAliasAddress_snd_of_ok (o : Oracles) (accountId res : String)
    (h : (getEvmAliasAddress o accountId).1 = .ok res) :
    (getEvmAliasAddress o accountId).2 = [.accountInfoQuery accountId] := by
  unfold getEvmAliasAddress at h ⊢
  rcases hsol : o.solidityAddress accountId with e | sol
  · simp [hsol] at h
  · simp only [hsol] at h ⊢
    rcases hai : o.accountInfo accountId with e | v
    · rfl
    · rcases v with _ | evm
      · rfl
      · repeat' split
        all_goals rfl

theorem assembleAndRun_calls (o : Oracles) (mode : AgentMode) (label : String)
    (tx : TxIntent) (pre : List LedgerCall) (call : LedgerCall)
    (h : call ∈ (assembleAndRun o mode label tx pre).2) :
    call ∈ pre ∨ (mode = .autonomous ∧ call = .txExecute tx) ∨
      (mode ≠ .autonomous ∧ call = .txFreeze tx) := by
  unfold assembleAndRun at h
  repeat' split at h
  all_goals simp only [List.mem_append, List.mem_singleton] at h
  all_goals tauto

theorem mathTrunc_million : mathTrunc 1000000 = 1000000 := by
  rw [mathTrunc, truncTowardZero, if_pos (by norm_num : (0 : ℚ) ≤ 1000000)]
  norm_num

theorem depositBody_calls (env : EnvConfig) (o : Oracles) (contracts : Js)
    (client : ClientState) (mode : AgentMode) (p : DepositParams) (call : LedgerCall)
    (h : call ∈ (depositBody env o contracts client mode p).2) :
    (∃ a, call = LedgerCall.contractCallQuery a) ∨
      (∃ a, call = LedgerCall.accountInfoQuery a) ∨
      ∃ tx, ((mode = AgentMode.autonomous ∧ call = LedgerCall.txExecute tx) ∨
          (mode ≠ AgentMode.autonomous ∧ call = LedgerCall.txFreeze tx)) ∧
        tx.gas = 1000000 ∧ tx.maxFeeHbar = 3000000 := by
  unfold depositBody at h
  rcases hnet : getNetworkKey client with e | network
  · simp [hnet] at h
  · simp only [hnet] at h
    rcases htok : getTokenAddresses contracts (jsToUpper p.tokenSymbol) network with te | T
    · simp [htok] at h
    · simp only [htok] at h
      rcases hdec : (resolveDecimalsStep o p.tokenSymbol T.token).1 with e | d
      · simp only [hdec] at h
        exact Or.inl ⟨_, resolveDecimalsStep_calls _ _ _ _ h⟩
      · simp only [hdec] at h
        rcases hob : jsOrString p.onBehalfOf client.operatorAccountId with _ | obid
        · simp only [hob] at h
          exact Or.inl ⟨_, resolveDecimalsStep_calls _ _ _ _ h⟩
        · simp only [hob] at h
          rcases hal : (getEvmAliasAddress o obid).1 with e | ob
          · simp only [hal] at h
            rcases List.mem_append.mp h with h2 | h2
            · exact Or.inl ⟨_, resolveDecimalsStep_calls _ _ _ _ h2⟩
            · exact Or.inr (Or.inl ⟨_, getEvmAliasAddress_calls _ _ _ h2⟩)
          · simp only [hal] at h
            rcases hlp : getLendingPoolAddress contracts network with e | lp
            · simp only [hlp] at h
              rcases List.mem_append.mp h with h2 | h2
              · exact Or.inl ⟨_, resolveDecimalsStep_calls _ _ _ _ h2⟩
              · exact Or.inr (Or.inl ⟨_, getEvmAliasAddress_calls _ _ _ h2⟩)
            · simp only [hlp] at h
              rcases hmm : validateNetworkMismatch o client lp with e | w
              · simp only [hmm] at h
                rcases List.mem_append.mp h with h2 | h2
                · exact Or.inl ⟨_, resolveDecimalsStep_calls _ _ _ _ h2⟩
                · exact Or.inr (Or.inl ⟨_, getEvmAliasAddress_calls _ _ _ h2⟩)
              · rcases w with _ | wmsg
                · simp only [hmm] at h
                  rcases assembleAndRun_calls _ _ _ _ _ _ h with h2 | ⟨hm, h2⟩ | ⟨hm, h2⟩
                  · rcases List.mem_append.mp h2 with h3 | h3
                    · exact Or.inl ⟨_, resolveDecimalsStep_calls _ _ _ _ h3⟩
                    · exact Or.inr (Or.inl ⟨_, getEvmAliasAddress_calls _ _ _ h3⟩)
                  · refine Or.inr (Or.inr ⟨_, Or.inl ⟨hm, h2⟩, ?_, ?_⟩)
                    · show (if (0 : ℚ) < 1000000 then mathTrunc 1000000
                        else (defaultGasAndFee .heavy env).gas) = 1000000
                      rw [if_pos (by norm_num : (0 : ℚ) < 1000000), mathTrunc_million]
                    · show (if (0 : ℚ) < 3000000 then (3000000 : ℚ)
                        else (defaultGasAndFee .heavy env).feeHbar) = 3000000
                      rw [if_pos (by norm_num : (0 : ℚ) < 3000000)]
                  · refine Or.inr (Or.inr ⟨_, Or.inr ⟨hm, h2⟩, ?_, ?_⟩)
                    · show (if (0 : ℚ) < 1000000 then mathTrunc 1000000
                        else (defaultGasAndFee .heavy env).gas) = 1000000
                      rw [if_pos (by norm_num : (0 : ℚ) < 1000000), mathTrunc_million]
                    · show (if (0 : ℚ) < 3000000 then (3000000 : ℚ)
                        else (defaultGasAndFee .heavy env).feeHbar) = 3000000
                      rw [if_pos (by norm_num : (0 : ℚ) < 3000000)]
                · simp only [hmm] at h
                  rcases List.mem_append.mp h with h2 | h2
                  · exact Or.inl ⟨_, resolveDecimalsStep_calls _ _ _ _ h2⟩
                  · exact Or.inr (Or.inl ⟨_, getEvmAliasAddress_calls _ _ _ h2⟩)

theorem withdrawBody_calls (env : EnvConfig) (o : Oracles) (contracts : Js)
    (client : ClientState) (mode : AgentMode) (p : WithdrawParams) (call : LedgerCall)
    (h : call ∈ (withdrawBody env o contracts client mode p).2) :
    (∃ a, call = LedgerCall.contractCallQuery a) ∨
      ∃ tx network T d toA,
        getNetworkKey client = Except.ok network ∧
        getTokenAddresses contracts (jsToUpper p.tokenSymbol) network = Except.ok T ∧
        (resolveDecimalsStep o p.tokenSymbol T.token).1 = Except.ok d ∧
        ((mode = AgentMode.autonomous ∧ call = LedgerCall.txExecute tx) ∨
          (mode ≠ AgentMode.autonomous ∧ call = LedgerCall.txFreeze tx)) ∧
        tx.data = CallData.withdrawCall T.token
          (if p.withdrawAll then maxUint256 else toWei p.amount d) toA := by
  unfold withdrawBody at h
  rcases hnet : getNetworkKey client with e | network
  · simp [hnet] at h
  · simp only [hnet] at h
    rcases htok : getTokenAddresses contracts (jsToUpper p.tokenSymbol) network with te | T
    · simp [htok] at h
    · simp only [htok] at h
      rcases hdec : (resolveDecimalsStep o p.tokenSymbol T.token).1 with e | d
      · simp only [hdec] at h
        exact Or.inl ⟨_, resolveDecimalsStep_calls _ _ _ _ h⟩
      · simp only [hdec] at h
        rcases hto : jsOrString p.toAccount client.operatorAccountId with _ | targetId
        · simp only [hto] at h
          exact Or.inl ⟨_, resolveDecimalsStep_calls _ _ _ _ h⟩
        · simp only [hto] at h
          rcases haddr : toEvmAddressFromAccount o targetId with e | toA
          · simp only [haddr] at h
            exact Or.inl ⟨_, resolveDecimalsStep_calls _ _ _ _ h⟩
          · simp only [haddr] at h
            rcases hlp : getLendingPoolAddress contracts network with e | lp
            · simp only [hlp] at h
              exact Or.inl ⟨_, resolveDecimalsStep_calls _ _ _ _ h⟩
            · simp only [hlp] at h
              rcases assembleAndRun_calls _ _ _ _ _ _ h with h2 | ⟨hm, h2⟩ | ⟨hm, h2⟩
              · exact Or.inl ⟨_, resolveDecimalsStep_calls _ _ _ _ h2⟩
              · exact Or.inr ⟨_, network, T, d, toA, rfl, htok, hdec, Or.inl ⟨hm, h2⟩, rfl⟩
              · exact Or.inr ⟨_, network, T, d, toA, rfl, htok, hdec, Or.inr ⟨hm, h2⟩, rfl⟩

theorem borrowBody_calls (env : EnvConfig) (o : Oracles) (contracts : Js)
    (client : ClientState) (mode : AgentMode) (p : BorrowParams) (call : LedgerCall)
    (h : call ∈ (borrowBody env o contracts client mode p).2) :
    (∃ a, call = LedgerCall.contractCallQuery a) ∨
      ∃ tx, (mode = AgentMode.autonomous ∧ call = LedgerCall.txExecute tx) ∨
        (mode ≠ AgentMode.autonomous ∧ call = LedgerCall.txFreeze tx) := by
  unfold borrowBody at h
  rcases hnet : getNetworkKey client with e | network
  · simp [hnet] at h
  · simp only [hnet] at h
    rcases htok : getTokenAddresses contracts (jsToUpper p.tokenSymbol) network with te | T
    · simp [htok] at h
    · simp only [htok] at h
      rcases hdec : (resolveDecimalsStep o p.tokenSymbol T.token).1 with e | d
      · simp only [hdec] at h
        exact Or.inl ⟨_, resolveDecimalsStep_calls _ _ _ _ h⟩
      · simp only [hdec] at h
        rcases hob : jsOrString p.onBehalfOf client.operatorAccountId with _ | obid
        · simp only [hob] at h
          exact Or.inl ⟨_, resolveDecimalsStep_calls _ _ _ _ h⟩
        · simp only [hob] at h
          rcases haddr : toEvmAddressFromAccount o obid with e | ob
          · simp only [haddr] at h
            exact Or.inl ⟨_, resolveDecimalsStep_calls _ _ _ _ h⟩
          · simp only [haddr] at h
            rcases hlp : getLendingPoolAddress contracts network with e | lp
            · simp only [hlp] at h
              exact Or.inl ⟨_, resolveDecimalsStep_calls _ _ _ _ h⟩
            · simp only [hlp] at h
              rcases assembleAndRun_calls _ _ _ _ _ _ h with h2 | ⟨hm, h2⟩ | ⟨hm, h2⟩
              · exact Or.inl ⟨_, resolveDecimalsStep_calls _ _ _ _ h2⟩
              · exact Or.inr ⟨_, Or.inl ⟨hm, h2⟩⟩
              · exact Or.inr ⟨_, Or.inr ⟨hm, h2⟩⟩

theorem repayBody_calls (env : EnvConfig) (o : Oracles) (contracts : Js)
    (client : ClientState) (mode : AgentMode) (p : RepayParams) (call : LedgerCall)
    (h : call ∈ (repayBody env o contracts client mode p).2) :
    (∃ a, call = LedgerCall.contractCallQuery a) ∨
      ∃ tx, (mode = AgentMode.autonomous ∧ call = LedgerCall.txExecute tx) ∨
        (mode ≠ AgentMode.autonomous ∧ call = LedgerCall.txFreeze tx) := by
  unfold repayBody at h
  rcases hnet : getNetworkKey client with e | network
  · simp [hnet] at h
  · simp only [hnet] at h
    rcases htok : getTokenAddresses contracts (jsToUpper p.tokenSymbol) network with te | T
    · simp [htok] at h
    · simp only [htok] at h
      rcases hdec : (resolveDecimalsStep o p.tokenSymbol T.token).1 with e | d
      · simp only [hdec] at h
        exact Or.inl ⟨_, resolveDecimalsStep_calls _ _ _ _ h⟩
      · simp only [hdec] at h
        rcases hob : jsOrString p.onBehalfOf client.operatorAccountId with _ | obid
        · simp only [hob] at h
          exact Or.inl ⟨_, resolveDecimalsStep_calls _ _ _ _ h⟩
        · simp only [hob] at h
          rcases haddr : toEvmAddressFromAccount o obid with e | ob
          · simp only [haddr] at h
            exact Or.inl ⟨_, resolveDecimalsStep_calls _ _ _ _ h⟩
          · simp only [haddr] at h
            rcases hlp : getLendingPoolAddress contracts network with e | lp
            · simp only [hlp] at h
              exact Or.inl ⟨_, resolveDecimalsStep_calls _ _ _ _ h⟩
            · simp only [hlp] at h
              rcases assembleAndRun_calls _ _ _ _ _ _ h with h2 | ⟨hm, h2⟩ | ⟨hm, h2⟩
              · exact Or.inl ⟨_, resolveDecimalsStep_calls _ _ _ _ h2⟩
              · exact Or.inr ⟨_, Or.inl ⟨hm, h2⟩⟩
              · exact Or.inr ⟨_, Or.inr ⟨hm, h2⟩⟩

theorem approveErc20Body_calls (env : EnvConfig) (o : Oracles) (contracts : Js)
    (client : ClientState) (mode : AgentMode) (p : ApproveParams) (call : LedgerCall)
    (h : call ∈ (approveErc20Body env o contracts client mode p).2) :
    (∃ a, call = LedgerCall.contractCallQuery a) ∨
      ∃ tx, (mode = AgentMode.autonomous ∧ call = LedgerCall.txExecute tx) ∨
        (mode ≠ AgentMode.autonomous ∧ call = LedgerCall.txFreeze tx) := by
  unfold approveErc20Body at h
  rcases hnet : getNetworkKey client with e | network
  · simp [hnet] at h
  · simp only [hnet] at h
    rcases htok : getTokenAddresses contracts (jsToUpper p.tokenSymbol) network with te | T
    · simp [htok] at h
    · simp only [htok] at h
      rcases hsp : jsOrString p.spender none with _ | s
      · simp only [hsp] at h
        rcases hlp : getLendingPoolAddress contracts network with e | lp
        · simp [hlp] at h
        · simp only [hlp] at h
          rcases hmm : validateNetworkMismatch o client lp with e | w
          · simp [hmm] at h
          · rcases w with _ | wmsg
            · simp only [hmm] at h
              rcases hdec : (resolveDecimalsStep o p.tokenSymbol T.token).1 with e | d
              · simp only [hdec] at h
                exact Or.inl ⟨_, resolveDecimalsStep_calls _ _ _ _ h⟩
              · simp only [hdec] at h
                rcases assembleAndRun_calls _ _ _ _ _ _ h with h2 | ⟨hm, h2⟩ | ⟨hm, h2⟩
                · exact Or.inl ⟨_, resolveDecimalsStep_calls _ _ _ _ h2⟩
                · exact Or.inr ⟨_, Or.inl ⟨hm, h2⟩⟩
                · exact Or.inr ⟨_, Or.inr ⟨hm, h2⟩⟩
            · simp [hmm] at h
      · simp only [hsp] at h
        rcases hdec : (resolveDecimalsStep o p.tokenSymbol T.token).1 with e | d
        · simp only [hdec] at h
          exact Or.inl ⟨_, resolveDecimalsStep_calls _ _ _ _ h⟩
        · simp only [hdec] at h
          rcases assembleAndRun_calls _ _ _ _ _ _ h with h2 | ⟨hm, h2⟩ | ⟨hm, h2⟩
          · exact Or.inl ⟨_, resolveDecimalsStep_calls _ _ _ _ h2⟩
          · exact Or.inr ⟨_, Or.inl ⟨hm, h2⟩⟩
          · exact Or.inr ⟨_, Or.inr ⟨hm, h2⟩⟩

/-- C4. In return-bytes (freeze) mode no handler ever reaches the
transaction-execution entry point of the ledger client: for every
combination of environment, external outcomes, contracts table, client and
parameters, the recorded trace of each of the five handlers contains no
`txExecute` call. -/
theorem freeze_mode_never_executes (env : EnvConfig) (o : Oracles) (contracts : Js)
    (client : ClientState) (tx : TxIntent) :
    (∀ p, LedgerCall.txExecute tx ∉
        (depositExecute env o contracts client AgentMode.returnBytes p).2) ∧
      (∀ p, LedgerCall.txExecute tx ∉
        (withdrawExecute env o contracts client AgentMode.returnBytes p).2) ∧
      (∀ p, LedgerCall.txExecute tx ∉
        (borrowExecute env o contracts client AgentMode.returnBytes p).2) ∧
      (∀ p, LedgerCall.txExecute tx ∉
        (repayExecute env o contracts client AgentMode.returnBytes p).2) ∧
      (∀ p, LedgerCall.txExecute tx ∉
        (approveErc20Execute env o contracts client AgentMode.returnBytes p).2) := by
  refine ⟨?_, ?_, ?_, ?_, ?_⟩
  · intro p h
    unfold depositExecute at h
    rw [catchToolErrors_snd] at h
    rcases depositBody_calls _ _ _ _ _ _ _ h with ⟨a, ha⟩ | ⟨a, ha⟩ | ⟨tx2, hmode, -, -⟩
    · exact absurd ha (by simp)
    · exact absurd ha (by simp)
    · rcases hmode with ⟨hm, -⟩ | ⟨-, hc⟩
      · exact absurd hm (by simp)
      · exact absurd hc (by simp)
  · intro p h
    unfold withdrawExecute at h
    rw [catchToolErrors_snd] at h
    rcases withdrawBody_calls _ _ _ _ _ _ _ h with ⟨a, ha⟩ | ⟨tx2, nw, T, d, toA, -, -, -, hmode, -⟩
    · exact absurd ha (by simp)
    · rcases hmode with ⟨hm, -⟩ | ⟨-, hc⟩
      · exact absurd hm (by simp)
      · exact absurd hc (by simp)
  · intro p h
    unfold borrowExecute at h
    rw [catchToolErrors_snd] at h
    rcases borrowBody_calls _ _ _ _ _ _ _ h with ⟨a, ha⟩ | ⟨tx2, ⟨hm, -⟩ | ⟨-, hc⟩⟩
    · exact absurd ha (by simp)
    · exact absurd hm (by simp)
    · exact absurd hc (by simp)
  · intro p h
    unfold repayExecute at h
    rw [catchToolErrors_snd] at h
    rcases repayBody_calls _ _ _ _ _ _ _ h with ⟨a, ha⟩ | ⟨tx2, ⟨hm, -⟩ | ⟨-, hc⟩⟩
    · exact absurd ha (by simp)
    · exact absurd hm (by simp)
    · exact absurd hc (by simp)
  · intro p h
    unfold approveErc20Execute at h
    rw [catchToolErrors_snd] at h
    rcases approveErc20Body_calls _ _ _ _ _ _ _ h with ⟨a, ha⟩ | ⟨tx2, ⟨hm, -⟩ | ⟨-, hc⟩⟩
    · exact absurd ha (by simp)
    · exact absurd hm (by simp)
    · exact absurd hc (by simp)

/-- C2 (code defect). With every override variable unset, both tiers of
`defaultGasAndFee` yield a gas limit of 0 instead of the built-in
defaults, because `Number(process.env.X || "")` is 0 — a finite number —
when the variable is unset; and the deposit handler ignores the
environment entirely: every transaction it assembles carries the
hardcoded gas limit 1,000,000 and max fee 3,000,000 HBAR. -/
theorem gas_env_override_defect :
    (defaultGasAndFee .light envAllUnset).gas = 0 ∧
      (defaultGasAndFee .heavy envAllUnset).gas = 0 ∧
      ∀ env o contracts client mode p tx,
        (LedgerCall.txExecute tx ∈ (depositExecute env o contracts client mode p).2 ∨
          LedgerCall.txFreeze tx ∈ (depositExecute env o contracts client mode p).2) →
        tx.gas = 1000000 ∧ tx.maxFeeHbar = 3000000 := by
  refine ⟨by decide, by decide, ?_⟩
  intro env o contracts client mode p tx h
  have hmem : (LedgerCall.txExecute tx ∈ (depositBody env o contracts client mode p).2 ∨
      LedgerCall.txFreeze tx ∈ (depositBody env o contracts client mode p).2) := by
    rcases h with h | h <;> [left; right] <;>
      (unfold depositExecute at h; rwa [catchToolErrors_snd] at h)
  rcases hmem with h2 | h2 <;>
    rcases depositBody_calls _ _ _ _ _ _ _ h2 with ⟨a, ha⟩ | ⟨a, ha⟩ | ⟨tx2, hmode, hg, hf⟩ <;>
      first
        | exact absurd ha (by simp)
        | (rcases hmode with ⟨-, hc⟩ | ⟨-, hc⟩ <;>
            first
              | (cases hc; exact ⟨hg, hf⟩)
              | exact absurd hc (by simp))

/-- Witness for C2: a concrete deposit freeze run; its assembled
transaction carries gas 1,000,000 and max fee 3,000,000 HBAR. -/
theorem gas_env_override_defect_witness :
    (LedgerCall.txExecute demoDepositTx ∈
        (depositExecute envAllUnset demoOracles demoContracts demoClient
          AgentMode.returnBytes demoDepositParams).2 ∨
      LedgerCall.txFreeze demoDepositTx ∈
        (depositExecute envAllUnset demoOracles demoContracts demoClient
          AgentMode.returnBytes demoDepositParams).2) ∧
      (demoDepositTx.gas = 1000000 ∧ demoDepositTx.maxFeeHbar = 3000000) :=
  ⟨Or.inr (by decide),
    gas_env_override_defect.2.2 envAllUnset demoOracles demoContracts demoClient
      AgentMode.returnBytes demoDepositParams demoDepositTx (Or.inr (by decide))⟩

/-- C5. Any transaction the withdraw handler executes or freezes encodes,
as the `uint256 amount` argument of the withdraw call, exactly
`maxUint256 = 2 ^ 256 - 1` when the withdraw-all flag is set —
irrespective of the literal amount — and exactly `toWei amount decimals`
with the resolved decimals otherwise. -/
theorem withdrawAll_encodes_maxUint256 :
    ∀ env o contracts client mode p tx,
      (LedgerCall.txExecute tx ∈ (withdrawExecute env o contracts client mode p).2 ∨
        LedgerCall.txFreeze tx ∈ (withdrawExecute env o contracts client mode p).2) →
      maxUint256 = 2 ^ 256 - 1 ∧
        (p.withdrawAll = true → tx.data.amountArg = maxUint256) ∧
        (p.withdrawAll = false →
          ∃ network T d,
            getNetworkKey client = Except.ok network ∧
            getTokenAddresses contracts (jsToUpper p.tokenSymbol) network = Except.ok T ∧
            (resolveDecimalsStep o p.tokenSymbol T.token).1 = Except.ok d ∧
            tx.data.amountArg = toWei p.amount d) := by
  intro env o contracts client mode p tx h
  have hmem : (LedgerCall.txExecute tx ∈ (withdrawBody env o contracts client mode p).2 ∨
      LedgerCall.txFreeze tx ∈ (withdrawBody env o contracts client mode p).2) := by
    rcases h with h | h <;> [left; right] <;>
      (unfold withdrawExecute at h; rwa [catchToolErrors_snd] at h)
  have key : ∃ network T d toA,
      getNetworkKey client = Except.ok network ∧
      getTokenAddresses contracts (jsToUpper p.tokenSymbol) network = Except.ok T ∧
      (resolveDecimalsStep o p.tokenSymbol T.token).1 = Except.ok d ∧
      tx.data = CallData.withdrawCall T.token
        (if p.withdrawAll then maxUint256 else toWei p.amount d) toA := by
    rcases hmem with h2 | h2 <;>
      rcases withdrawBody_calls _ _ _ _ _ _ _ h2
        with ⟨a, ha⟩ | ⟨tx2, nw, T, d, toA, hnet, htok, hdec, hmode, hdata⟩ <;>
        first
          | exact absurd ha (by simp)
          | (rcases hmode with ⟨-, hc⟩ | ⟨-, hc⟩ <;>
              first
                | (cases hc; exact ⟨nw, T, d, toA, hnet, htok, hdec, hdata⟩)
                | exact absurd hc (by simp))
  obtain ⟨nw, T, d, toA, hnet, htok, hdec, hdata⟩ := key
  refine ⟨by norm_num [maxUint256], fun hw => ?_, fun hw => ?_⟩
  · rw [hdata, hw]
    simp [CallData.amountArg]
  · exact ⟨nw, T, d, hnet, htok, hdec, by rw [hdata, hw]; simp [CallData.amountArg]⟩

/-- Witness for C5: a concrete withdraw-all freeze run; the encoded amount
is exactly the max sentinel. -/
theorem withdrawAll_encodes_maxUint256_witness :
    (LedgerCall.txExecute demoWithdrawTx ∈
        (withdrawExecute envAllUnset demoOracles demoContracts demoClient
          AgentMode.returnBytes demoWithdrawAllParams).2 ∨
      LedgerCall.txFreeze demoWithdrawTx ∈
        (withdrawExecute envAllUnset demoOracles demoContracts demoClient
          AgentMode.returnBytes demoWithdrawAllParams).2) ∧
      (maxUint256 = 2 ^ 256 - 1 ∧
        (demoWithdrawAllParams.withdrawAll = true →
          demoWithdrawTx.data.amountArg = maxUint256) ∧
        (demoWithdrawAllParams.withdrawAll = false →
          ∃ network T d,
            getNetworkKey demoClient = Except.ok network ∧
            getTokenAddresses demoContracts (jsToUpper demoWithdrawAllParams.tokenSymbol)
              network = Except.ok T ∧
            (resolveDecimalsStep demoOracles demoWithdrawAllParams.tokenSymbol T.token).1 =
              Except.ok d ∧
            demoWithdrawTx.data.amountArg = toWei demoWithdrawAllParams.amount d)) :=
  ⟨Or.inr (by decide),
    withdrawAll_encodes_maxUint256 envAllUnset demoOracles demoContracts demoClient
      AgentMode.returnBytes demoWithdrawAllParams demoWithdrawTx (Or.inr (by decide))⟩

theorem catchToolErrors_ok_total (contracts : Js) (client : ClientState) (label : String)
    (body : Except String ToolOut × List LedgerCall) (network : NetworkKey)
    (hnk : getNetworkKey client = Except.ok network) :
    ∃ r, (catchToolErrors contracts client label body).1 = Except.ok r := by
  rcases hb : body.1 with msg | r
  · exact ⟨_, catchToolErrors_caught _ _ _ _ _ _ hnk hb⟩
  · exact ⟨r, catchToolErrors_fst_ok _ _ _ _ _ hb⟩

/-- C6 counterexample: on an unsupported network the thrown error is not
converted into a failure string — the catch block itself calls
`getNetworkKey` again, which throws, and the exception escapes the
handler. -/
theorem handler_error_escape_counterexample :
    (depositExecute envAllUnset demoOracles demoContracts badClient
        AgentMode.returnBytes demoDepositParams).1 =
      Except.error ("Unsupported Hedera network: previewnet") := by
  rfl

/-- C6 as amended: once network resolution succeeds, no handler ever
propagates an exception — every thrown error is converted into the
failure string carrying the message, the active network and the
available-symbols list; when network resolution itself fails, the catch
block rethrows (see the counterexample). -/
theorem handler_errors_caught (env : EnvConfig) (o : Oracles) (contracts : Js)
    (client : ClientState) (network : NetworkKey)
    (hnk : getNetworkKey client = Except.ok network) :
    (∀ mode p, ∃ r, (depositExecute env o contracts client mode p).1 = Except.ok r) ∧
      (∀ mode p, ∃ r, (withdrawExecute env o contracts client mode p).1 = Except.ok r) ∧
      (∀ mode p, ∃ r, (borrowExecute env o contracts client mode p).1 = Except.ok r) ∧
      (∀ mode p, ∃ r, (repayExecute env o contracts client mode p).1 = Except.ok r) ∧
      (∀ mode p, ∃ r, (approveErc20Execute env o contracts client mode p).1 = Except.ok r) ∧
      (∀ mode p msg, (depositBody env o contracts client mode p).1 = Except.error msg →
        (depositExecute env o contracts client mode p).1 =
          Except.ok (.text (failureText ("Deposit") msg contracts network))) ∧
      (∀ mode p msg, (withdrawBody env o contracts client mode p).1 = Except.error msg →
        (withdrawExecute env o contracts client mode p).1 =
          Except.ok (.text (failureText ("Withdraw") msg contracts network))) ∧
      (∀ mode p msg, (borrowBody env o contracts client mode p).1 = Except.error msg →
        (borrowExecute env o contracts client mode p).1 =
          Except.ok (.text (failureText ("Borrow") msg contracts network))) ∧
      (∀ mode p msg, (repayBody env o contracts client mode p).1 = Except.error msg →
        (repayExecute env o contracts client mode p).1 =
          Except.ok (.text (failureText ("Repay") msg contracts network))) ∧
      (∀ mode p msg, (approveErc20Body env o contracts client mode p).1 = Except.error msg →
        (approveErc20Execute env o contracts client mode p).1 =
          Except.ok (.text (failureText ("Approve") msg contracts network))) := by
  refine ⟨fun mode p => ?_, fun mode p => ?_, fun mode p => ?_, fun mode p => ?_,
    fun mode p => ?_, fun mode p msg hmsg => ?_, fun mode p msg hmsg => ?_,
    fun mode p msg hmsg => ?_, fun mode p msg hmsg => ?_, fun mode p msg hmsg => ?_⟩
  · exact catchToolErrors_ok_total contracts client ("Deposit")
      (depositBody env o contracts client mode p) network hnk
  · exact catchToolErrors_ok_total contracts client ("Withdraw")
      (withdrawBody env o contracts client mode p) network hnk
  · exact catchToolErrors_ok_total contracts client ("Borrow")
      (borrowBody env o contracts client mode p) network hnk
  · exact catchToolErrors_ok_total contracts client ("Repay")
      (repayBody env o contracts client mode p) network hnk
  · exact catchToolErrors_ok_total contracts client ("Approve")
      (approveErc20Body env o contracts client mode p) network hnk
  · exact catchToolErrors_caught _ _ _ _ _ _ hnk hmsg
  · exact catchToolErrors_caught _ _ _ _ _ _ hnk hmsg
  · exact catchToolErrors_caught _ _ _ _ _ _ hnk hmsg
  · exact catchToolErrors_caught _ _ _ _ _ _ hnk hmsg
  · exact catchToolErrors_caught _ _ _ _ _ _ hnk hmsg

/-- Witness for the amended C6 at a concrete testnet client. -/
theorem handler_errors_caught_witness :
    getNetworkKey demoClient = Except.ok NetworkKey.hedera_testnet ∧
      ((∀ mode p, ∃ r, (depositExecute envAllUnset demoOracles demoContracts demoClient
          mode p).1 = Except.ok r) ∧
        (∀ mode p, ∃ r, (withdrawExecute envAllUnset demoOracles demoContracts demoClient
          mode p).1 = Except.ok r) ∧
        (∀ mode p, ∃ r, (borrowExecute envAllUnset demoOracles demoContracts demoClient
          mode p).1 = Except.ok r) ∧
        (∀ mode p, ∃ r, (repayExecute envAllUnset demoOracles demoContracts demoClient
          mode p).1 = Except.ok r) ∧
        (∀ mode p, ∃ r, (approveErc20Execute envAllUnset demoOracles demoContracts demoClient
          mode p).1 = Except.ok r) ∧
        (∀ mode p msg, (depositBody envAllUnset demoOracles demoContracts demoClient
            mode p).1 = Except.error msg →
          (depositExecute envAllUnset demoOracles demoContracts demoClient mode p).1 =
            Except.ok (.text (failureText ("Deposit") msg demoContracts
              NetworkKey.hedera_testnet))) ∧
        (∀ mode p msg, (withdrawBody envAllUnset demoOracles demoContracts demoClient
            mode p).1 = Except.error msg →
          (withdrawExecute envAllUnset demoOracles demoContracts demoClient mode p).1 =
            Except.ok (.text (failureText ("Withdraw") msg demoContracts
              NetworkKey.hedera_testnet))) ∧
        (∀ mode p msg, (borrowBody envAllUnset demoOracles demoContracts demoClient
            mode p).1 = Except.error msg →
          (borrowExecute envAllUnset demoOracles demoContracts demoClient mode p).1 =
            Except.ok (.text (failureText ("Borrow") msg demoContracts
              NetworkKey.hedera_testnet))) ∧
        (∀ mode p msg, (repayBody envAllUnset demoOracles demoContracts demoClient
            mode p).1 = Except.error msg →
          (repayExecute envAllUnset demoOracles demoContracts demoClient mode p).1 =
            Except.ok (.text (failureText ("Repay") msg demoContracts
              NetworkKey.hedera_testnet))) ∧
        (∀ mode p msg, (approveErc20Body envAllUnset demoOracles demoContracts demoClient
            mode p).1 = Except.error msg →
          (approveErc20Execute envAllUnset demoOracles demoContracts demoClient mode p).1 =
            Except.ok (.text (failureText ("Approve") msg demoContracts
              NetworkKey.hedera_testnet)))) :=
  ⟨rfl, handler_errors_caught envAllUnset demoOracles demoContracts demoClient
    NetworkKey.hedera_testnet rfl⟩

theorem depositBody_mismatch (env : EnvConfig) (o : Oracles) (contracts : Js)
    (client : ClientState) (mode : AgentMode) (p : DepositParams) (T : TokenAddresses)
    (d : Nat) (obid ob lp : String)
    (hnet : getNetworkKey client = Except.ok NetworkKey.hedera_testnet)
    (htok : getTokenAddresses contracts (jsToUpper p.tokenSymbol)
      NetworkKey.hedera_testnet = Except.ok T)
    (hdec : (resolveDecimalsStep o p.tokenSymbol T.token).1 = Except.ok d)
    (hob : jsOrString p.onBehalfOf client.operatorAccountId = some obid)
    (hal : (getEvmAliasAddress o obid).1 = Except.ok ob)
    (hlp : getLendingPoolAddress contracts NetworkKey.hedera_testnet = Except.ok lp)
    (haddr : jsToLower lp = jsToLower MAINNET_LENDING_POOL_ADDRESS) :
    depositBody env o contracts client mode p =
      (Except.ok (ToolOut.text (networkMismatchText (formatAddress o lp))),
        (resolveDecimalsStep o p.tokenSymbol T.token).2 ++
          [LedgerCall.accountInfoQuery obid]) := by
  have hmm : validateNetworkMismatch o client lp =
      Except.ok (some (networkMismatchText (formatAddress o lp))) := by
    unfold validateNetworkMismatch
    rw [hnet, haddr]
    simp
  unfold depositBody
  simp only [hnet, htok, hdec, hob, hal, hlp, hmm,
    getEvmAliasAddress_snd_of_ok o obid ob hal]

theorem approveErc20Body_mismatch (env : EnvConfig) (o : Oracles) (contracts : Js)
    (client : ClientState) (mode : AgentMode) (p : ApproveParams) (TA : TokenAddresses)
    (lp : String)
    (hnet : getNetworkKey client = Except.ok NetworkKey.hedera_testnet)
    (htok : getTokenAddresses contracts (jsToUpper p.tokenSymbol)
      NetworkKey.hedera_testnet = Except.ok TA)
    (hsp : jsOrString p.spender none = none)
    (hlp : getLendingPoolAddress contracts NetworkKey.hedera_testnet = Except.ok lp)
    (haddr : jsToLower lp = jsToLower MAINNET_LENDING_POOL_ADDRESS) :
    approveErc20Body env o contracts client mode p =
      (Except.ok (ToolOut.text (networkMismatchText (formatAddress o lp))), []) := by
  have hmm : validateNetworkMismatch o client lp =
      Except.ok (some (networkMismatchText (formatAddress o lp))) := by
    unfold validateNetworkMismatch
    rw [hnet, haddr]
    simp
  unfold approveErc20Body
  simp only [hnet, htok, hsp, hlp, hmm]

/-- C8 as amended: when the resolved lending-pool address equals the
mainnet LendingPool address (case-insensitively) while the client is on
testnet, the deposit handler returns the network-mismatch warning and
never executes or freezes a transaction — but it has already issued the
account-info ledger query for the counterparty before the guard runs; the
approve handler without a spender override returns the warning having
made no ledger call at all. -/
theorem network_mismatch_guard (env : EnvConfig) (o : Oracles) (contracts : Js)
    (client : ClientState) (mode : AgentMode) (pd : DepositParams) (pa : ApproveParams)
    (T TA : TokenAddresses) (d : Nat) (obid ob lp : String)
    (hnet : getNetworkKey client = Except.ok NetworkKey.hedera_testnet)
    (hlp : getLendingPoolAddress contracts NetworkKey.hedera_testnet = Except.ok lp)
    (haddr : jsToLower lp = jsToLower MAINNET_LENDING_POOL_ADDRESS)
    (htokD : getTokenAddresses contracts (jsToUpper pd.tokenSymbol)
      NetworkKey.hedera_testnet = Except.ok T)
    (hdec : (resolveDecimalsStep o pd.tokenSymbol T.token).1 = Except.ok d)
    (hob : jsOrString pd.onBehalfOf client.operatorAccountId = some obid)
    (hal : (getEvmAliasAddress o obid).1 = Except.ok ob)
    (htokA : getTokenAddresses contracts (jsToUpper pa.tokenSymbol)
      NetworkKey.hedera_testnet = Except.ok TA)
    (hsp : jsOrString pa.spender none = none) :
    (depositExecute env o contracts client mode pd).1 =
        Except.ok (ToolOut.text (networkMismatchText (formatAddress o lp))) ∧
      (∀ tx, LedgerCall.txExecute tx ∉ (depositExecute env o contracts client mode pd).2 ∧
        LedgerCall.txFreeze tx ∉ (depositExecute env o contracts client mode pd).2) ∧
      LedgerCall.accountInfoQuery obid ∈ (depositExecute env o contracts client mode pd).2 ∧
      (approveErc20Execute env o contracts client mode pa).1 =
        Except.ok (ToolOut.text (networkMismatchText (formatAddress o lp))) ∧
      (approveErc20Execute env o contracts client mode pa).2 = [] := by
  have hdBody := depositBody_mismatch env o contracts client mode pd T d obid ob lp
    hnet htokD hdec hob hal hlp haddr
  have haBody := approveErc20Body_mismatch env o contracts client mode pa TA lp
    hnet htokA hsp hlp haddr
  have hd1 : (depositBody env o contracts client mode pd).1 =
      Except.ok (ToolOut.text (networkMismatchText (formatAddress o lp))) := by rw [hdBody]
  have hd2 : (depositBody env o contracts client mode pd).2 =
      (resolveDecimalsStep o pd.tokenSymbol T.token).2 ++
        [LedgerCall.accountInfoQuery obid] := by rw [hdBody]
  have ha1 : (approveErc20Body env o contracts client mode pa).1 =
      Except.ok (ToolOut.text (networkMismatchText (formatAddress o lp))) := by rw [haBody]
  have ha2 : (approveErc20Body env o contracts client mode pa).2 = [] := by rw [haBody]
  refine ⟨?_, ?_, ?_, ?_, ?_⟩
  · exact catchToolErrors_fst_ok _ _ _ _ _ hd1
  · intro tx
    constructor
    · intro hmem
      unfold depositExecute at hmem
      rw [catchToolErrors_snd, hd2] at hmem
      rcases List.mem_append.mp hmem with h2 | h2
      · exact absurd (resolveDecimalsStep_calls _ _ _ _ h2) (by simp)
      · simp at h2
    · intro hmem
      unfold depositExecute at hmem
      rw [catchToolErrors_snd, hd2] at hmem
      rcases List.mem_append.mp hmem with h2 | h2
      · exact absurd (resolveDecimalsStep_calls _ _ _ _ h2) (by simp)
      · simp at h2
  · show LedgerCall.accountInfoQuery obid ∈ (depositExecute env o contracts client mode pd).2
    unfold depositExecute
    rw [catchToolErrors_snd, hd2]
    simp
  · exact catchToolErrors_fst_ok _ _ _ _ _ ha1
  · show (approveErc20Execute env o contracts client mode pa).2 = []
    unfold approveErc20Execute
    rw [catchToolErrors_snd, ha2]

/-- C8 counterexample: in the mismatch scenario the deposit handler has
already performed a ledger call — the account-info query — before
returning the warning, so the claim that no ledger call is performed is
false as stated. -/
theorem network_mismatch_ledger_call_counterexample :
    (depositExecute envAllUnset demoOracles mismatchContracts demoClient
        AgentMode.returnBytes demoDepositParams).1 =
      Except.ok (ToolOut.text (networkMismatchText MAINNET_LENDING_POOL_ADDRESS)) ∧
      LedgerCall.accountInfoQuery ("0.0.1001") ∈
        (depositExecute envAllUnset demoOracles mismatchContracts demoClient
          AgentMode.returnBytes demoDepositParams).2 :=
  ⟨by rfl, by decide⟩

/-- Witness for the amended C8 at concrete mismatch inputs. -/
theorem network_mismatch_guard_witness :
    getNetworkKey demoClient = Except.ok NetworkKey.hedera_testnet ∧
      ((depositExecute envAllUnset demoOracles mismatchContracts demoClient
          AgentMode.returnBytes demoDepositParams).1 =
        Except.ok (ToolOut.text (networkMismatchText
          (formatAddress demoOracles MAINNET_LENDING_POOL_ADDRESS))) ∧
      (∀ tx, LedgerCall.txExecute tx ∉ (depositExecute envAllUnset demoOracles
          mismatchContracts demoClient AgentMode.returnBytes demoDepositParams).2 ∧
        LedgerCall.txFreeze tx ∉ (depositExecute envAllUnset demoOracles
          mismatchContracts demoClient AgentMode.returnBytes demoDepositParams).2) ∧
      LedgerCall.accountInfoQuery ("0.0.1001") ∈ (depositExecute envAllUnset demoOracles
        mismatchContracts demoClient AgentMode.returnBytes demoDepositParams).2 ∧
      (approveErc20Execute envAllUnset demoOracles mismatchContracts demoClient
          AgentMode.returnBytes demoApproveParams).1 =
        Except.ok (ToolOut.text (networkMismatchText
          (formatAddress demoOracles MAINNET_LENDING_POOL_ADDRESS))) ∧
      (approveErc20Execute envAllUnset demoOracles mismatchContracts demoClient
        AgentMode.returnBytes demoApproveParams).2 = []) :=
  ⟨rfl, network_mismatch_guard envAllUnset demoOracles mismatchContracts demoClient
    AgentMode.returnBytes demoDepositParams demoApproveParams
    ⟨"0x1111111111111111111111111111111111111111", none, none, none⟩
    ⟨"0x1111111111111111111111111111111111111111", none, none, none⟩
    8 ("0.0.1001") ("0x00000000000000000000000000000000000000aa")
    MAINNET_LENDING_POOL_ADDRESS rfl rfl rfl rfl rfl rfl rfl rfl rfl⟩

/-- C9. Whenever the market-data fetch fails, or succeeds without listing
the requested symbol (case-insensitively), decimals resolution is exactly
the live on-chain read `fetchErc20Decimals` — the market-data error is
swallowed, not propagated — and the trace records the on-chain query. -/
theorem marketData_fallback (o : Oracles) (tokenSymbol token : String)
    (h : (∃ e, o.fetchReserves = Except.error e) ∨
      (∃ reserves, o.fetchReserves = Except.ok reserves ∧
        List.find? (fun r => jsToUpper r.symbol == jsToUpper tokenSymbol) reserves = none)) :
    resolveDecimalsStep o tokenSymbol token = fetchErc20Decimals o token ∧
      LedgerCall.contractCallQuery token ∈ (resolveDecimalsStep o tokenSymbol token).2 := by
  have hmain : resolveDecimalsStep o tokenSymbol token = fetchErc20Decimals o token := by
    unfold resolveDecimalsStep
    rcases h with ⟨e, he⟩ | ⟨rs, hrs, hf⟩
    · simp [he]
    · simp [hrs, hf]
  refine ⟨hmain, ?_⟩
  rw [hmain, fetchErc20Decimals_snd]
  simp

/-- Witness for C9: with the market endpoint down, resolution for HBARX
equals the on-chain read and the query appears in the trace. -/
theorem marketData_fallback_witness :
    ((∃ e, downOracles.fetchReserves = Except.error e) ∨
      (∃ reserves, downOracles.fetchReserves = Except.ok reserves ∧
        List.find? (fun r => jsToUpper r.symbol == jsToUpper ("HBARX")) reserves = none)) ∧
      (resolveDecimalsStep downOracles "HBARX"
          ("0x1111111111111111111111111111111111111111") =
        fetchErc20Decimals downOracles ("0x1111111111111111111111111111111111111111") ∧
      LedgerCall.contractCallQuery ("0x1111111111111111111111111111111111111111") ∈
        (resolveDecimalsStep downOracles "HBARX"
          ("0x1111111111111111111111111111111111111111")).2) :=
  ⟨Or.inl ⟨_, rfl⟩,
    marketData_fallback downOracles "HBARX"
      ("0x1111111111111111111111111111111111111111") (Or.inl ⟨_, rfl⟩)⟩

theorem resolveDecimalsStep_congr (o : Oracles) (s1 s2 : String)
    (h : jsToUpper s1 = jsToUpper s2) (token : String) :
    resolveDecimalsStep o s1 token = resolveDecimalsStep o s2 token := by
  unfold resolveDecimalsStep
  simp only [h]

/-- C10. Symbol handling is ASCII-case-insensitive at every handler
boundary: two symbols with the same uppercasing produce identical runs of
all five handlers (identical directory lookups, identical market-data
matches, identical results and traces). -/
theorem tokenSymbol_case_insensitive (s1 s2 : String)
    (h : jsToUpper s1 = jsToUpper s2) (env : EnvConfig) (o : Oracles) (contracts : Js)
    (client : ClientState) (mode : AgentMode) :
    (∀ a ob rc, depositExecute env o contracts client mode ⟨s1, a, ob, rc⟩ =
        depositExecute env o contracts client mode ⟨s2, a, ob, rc⟩) ∧
      (∀ a t w, withdrawExecute env o contracts client mode ⟨s1, a, t, w⟩ =
        withdrawExecute env o contracts client mode ⟨s2, a, t, w⟩) ∧
      (∀ a rm ob rc, borrowExecute env o contracts client mode ⟨s1, a, rm, ob, rc⟩ =
        borrowExecute env o contracts client mode ⟨s2, a, rm, ob, rc⟩) ∧
      (∀ a rm ob ra, repayExecute env o contracts client mode ⟨s1, a, rm, ob, ra⟩ =
        repayExecute env o contracts client mode ⟨s2, a, rm, ob, ra⟩) ∧
      (∀ a sp um, approveErc20Execute env o contracts client mode ⟨s1, a, sp, um⟩ =
        approveErc20Execute env o contracts client mode ⟨s2, a, sp, um⟩) := by
  refine ⟨fun a ob rc => ?_, fun a t w => ?_, fun a rm ob rc => ?_,
    fun a rm ob ra => ?_, fun a sp um => ?_⟩
  · unfold depositExecute depositBody
    simp only [h, resolveDecimalsStep_congr o s1 s2 h]
  · unfold withdrawExecute withdrawBody
    simp only [h, resolveDecimalsStep_congr o s1 s2 h]
  · unfold borrowExecute borrowBody
    simp only [h, resolveDecimalsStep_congr o s1 s2 h]
  · unfold repayExecute repayBody
    simp only [h, resolveDecimalsStep_congr o s1 s2 h]
  · unfold approveErc20Execute approveErc20Body
    simp only [h, resolveDecimalsStep_congr o s1 s2 h]

/-- Witness for C10 at the pair hbarx / HBARX with concrete runs. -/
theorem tokenSymbol_case_insensitive_witness :
    jsToUpper ("hbarx") = jsToUpper ("HBARX") ∧
      ((∀ a ob rc, depositExecute envAllUnset demoOracles demoContracts demoClient
          AgentMode.returnBytes ⟨"hbarx", a, ob, rc⟩ =
        depositExecute envAllUnset demoOracles demoContracts demoClient
          AgentMode.returnBytes ⟨"HBARX", a, ob, rc⟩) ∧
      (∀ a t w, withdrawExecute envAllUnset demoOracles demoContracts demoClient
          AgentMode.returnBytes ⟨"hbarx", a, t, w⟩ =
        withdrawExecute envAllUnset demoOracles demoContracts demoClient
          AgentMode.returnBytes ⟨"HBARX", a, t, w⟩) ∧
      (∀ a rm ob rc, borrowExecute envAllUnset demoOracles demoContracts demoClient
          AgentMode.returnBytes ⟨"hbarx", a, rm, ob, rc⟩ =
        borrowExecute envAllUnset demoOracles demoContracts demoClient
          AgentMode.returnBytes ⟨"HBARX", a, rm, ob, rc⟩) ∧
      (∀ a rm ob ra, repayExecute envAllUnset demoOracles demoContracts demoClient
          AgentMode.returnBytes ⟨"hbarx", a, rm, ob, ra⟩ =
        repayExecute envAllUnset demoOracles demoContracts demoClient
          AgentMode.returnBytes ⟨"HBARX", a, rm, ob, ra⟩) ∧
      (∀ a sp um, approveErc20Execute envAllUnset demoOracles demoContracts demoClient
          AgentMode.returnBytes ⟨"hbarx", a, sp, um⟩ =
        approveErc20Execute envAllUnset demoOracles demoContracts demoClient
          AgentMode.returnBytes ⟨"HBARX", a, sp, um⟩)) :=
  ⟨by decide, tokenSymbol_case_insensitive "hbarx" "HBARX" (by decide) envAllUnset
    demoOracles demoContracts demoClient AgentMode.returnBytes⟩
